import Mathlib

/-!
# ESP32 room climate monitor: Modbus frame engine and comfort classifier

Shallow embedding of `src/main.cpp`, `include/config.h` and the two link tests
(`test/main_test.cpp`, `test/rs485_test.cpp`).

Conventions:
* a `uint8_t` is a `Byte = Fin 256`; every arithmetic step is done on the
  underlying natural number (C++ integer promotion) and the truncation that a
  store into a `uint8_t` / `uint16_t` performs is written as an explicit
  `% 256` / `% 65536`;
* a `uint8_t *` buffer is a `List Byte`; element `i` is read with `rd`;
* a `double` or `float` value is the rational it denotes (every finite
  floating-point number is a rational and the comparisons used by the code are
  exact on finite values); the binary64 division `raw / 10.0` and the
  narrowing of its result into a binary32 `float` global are rounded to
  nearest, ties to even, by `roundBinary`;
* `Serial.print*` output is recorded as a list of `Msg` values, one
  constructor per print statement of the source.
-/

namespace ClimateMonitor

set_option maxRecDepth 100000

/-! ## Machine integers and buffers -/

/-- An unsigned 8-bit value (`uint8_t`). -/
abbrev Byte := Fin 256

/-- Store of an integer into a `uint8_t` (truncation to the low 8 bits). -/
def toByte (n : Nat) : Byte := ⟨n % 256, Nat.mod_lt n (by decide)⟩

/-- Store of an integer into a `uint16_t` (truncation to the low 16 bits). -/
def toU16 (n : Nat) : Nat := n % 65536

/-- Read of `data[i]`, promoted to `int`. -/
def rd (data : List Byte) (i : Nat) : Nat := (data.getD i 0).val

/-! ## config.h -/

/-- `#define SENSOR_ADDRESS 0x01`. -/
def SENSOR_ADDRESS : Nat := 0x01

/-- `#define TEMP_MIN 18.0`. -/
def TEMP_MIN : ℚ := 18

/-- `#define TEMP_MAX 26.0`. -/
def TEMP_MAX : ℚ := 26

/-- `#define HUMIDITY_MIN 30.0`. -/
def HUMIDITY_MIN : ℚ := 30

/-- `#define HUMIDITY_MAX 60.0`. -/
def HUMIDITY_MAX : ℚ := 60

/-! ## calculateCRC (main.cpp 450-470, identical text in main_test.cpp 132-145) -/

/-- Body of the inner loop of `calculateCRC`:
`if (crc & 0x0001) crc = (crc >> 1) ^ 0xA001; else crc >>= 1;`. -/
def crcBitBody (crc : Nat) : Nat :=
  if crc &&& 0x0001 ≠ 0 then toU16 ((crc >>> 1) ^^^ 0xA001) else toU16 (crc >>> 1)

/-- Inner loop `for (uint8_t j = 0; j < 8; j++)`, entered with counter `j`. -/
def crcBitLoop (j crc : Nat) : Nat :=
  if _ : j < 8 then crcBitLoop ((j + 1) % 256) (crcBitBody crc) else crc
termination_by 8 - j
decreasing_by
  have h1 : (j + 1) % 256 = j + 1 := Nat.mod_eq_of_lt (by omega)
  omega

/-- Outer loop `for (uint8_t i = 0; i < length; i++)`, entered with counter `i`;
`length` is a `uint8_t`. -/
def crcByteLoop (data : List Byte) (length : Byte) (i crc : Nat) : Nat :=
  if _ : i < length.val then
    crcByteLoop data length ((i + 1) % 256) (crcBitLoop 0 (toU16 (crc ^^^ rd data i)))
  else crc
termination_by length.val - i
decreasing_by
  have h1 : (i + 1) % 256 = i + 1 := Nat.mod_eq_of_lt (by have := length.isLt; omega)
  omega

/-- `uint16_t calculateCRC(uint8_t *data, uint8_t length)`. -/
def calculateCRC (data : List Byte) (length : Byte) : Nat :=
  crcByteLoop data length 0 0xFFFF

/-! ### CRC-16/Modbus as the specification words it -/

/-- One of the 8 steps of the specification: "if the low bit of the accumulator
is set, shift right by one and exclusive-or with 0xA001; otherwise shift right
by one". -/
def specShiftStep (acc : Nat) : Nat :=
  if acc % 2 = 1 then (acc / 2) ^^^ 0xA001 else acc / 2

/-- Specification: combine one byte into the accumulator with exclusive-or,
then perform exactly 8 shift steps. -/
def specByteStep (acc : Nat) (b : Byte) : Nat :=
  specShiftStep^[8] (acc ^^^ b.val)

/-- Specification of the checksum: start from 0xFFFF and absorb the bytes in
order. -/
def specCRC16Modbus (bytes : List Byte) : Nat :=
  bytes.foldl specByteStep 0xFFFF

/-! ## Serial console output -/

/-- The lines that the firmware writes to the debug console, one constructor
per `Serial.print*` statement of `readXYMD02Sensor` and
`validateModbusResponse`. Elapsed times are not recorded. -/
inductive Msg where
  /-- The line `TX: ` followed by the bytes of the command. -/
  | tx (command : List Byte)
  /-- The line `RX: %d bytes after %lu ms`. -/
  | rxCount (available : Nat)
  /-- The line `RX: ` followed by the bytes of the response. -/
  | rx (response : List Byte)
  /-- The line `SUCCESS! Temperature: ..., Humidity: ...`. -/
  | success (temperature humidity : ℚ)
  /-- The line `ERROR: Invalid sensor response`. -/
  | invalidResponse
  /-- The line `Partial response: ` followed by the bytes read. -/
  | partialResponse (bytes : List Byte)
  /-- The line `Modbus Exception - Function: %02X, Code: %02X`. -/
  | modbusException (function code : Nat)
  /-- The line `ERROR: No response from XY-MD02 sensor (timeout)`. -/
  | timeout
  /-- The line `ERROR: Response too short for validation`. -/
  | tooShort
  /-- The line `ERROR: Wrong device address - Expected: %02X, Got: %02X`. -/
  | wrongAddress (expected got : Nat)
  /-- The line `ERROR: Wrong function code - Expected: 04, Got: %02X`. -/
  | wrongFunction (got : Nat)
  /-- The line `ERROR: Wrong byte count - Expected: 04, Got: %02X`. -/
  | wrongByteCount (got : Nat)
  /-- The line `ERROR: CRC mismatch - Received: %04X, Calculated: %04X`. -/
  | crcMismatch (received calculated : Nat)
  deriving DecidableEq, Repr

/-! ## validateModbusResponse (main.cpp 392-430) -/

/-- `bool validateModbusResponse(uint8_t *response, uint8_t expectedLength)`:
the returned flag together with the lines printed. -/
def validateModbusResponse (response : List Byte) (expectedLength : Byte) : Bool × List Msg :=
  if expectedLength.val < 5 then
    (false, [Msg.tooShort])
  else if rd response 0 ≠ SENSOR_ADDRESS then
    (false, [Msg.wrongAddress SENSOR_ADDRESS (rd response 0)])
  else if rd response 1 ≠ 0x04 then
    (false, [Msg.wrongFunction (rd response 1)])
  else if rd response 2 ≠ 0x04 then
    (false, [Msg.wrongByteCount (rd response 2)])
  else
    let receivedCRC : Nat :=
      toU16 (rd response (expectedLength.val - 2) ||| (rd response (expectedLength.val - 1) <<< 8))
    let calculatedCRC : Nat := calculateCRC response (toByte (expectedLength.val - 2))
    if receivedCRC ≠ calculatedCRC then
      (false, [Msg.crcMismatch receivedCRC calculatedCRC])
    else
      (true, [])

/-! ## Floating-point arithmetic of the decoder (main.cpp 45-46, 232, 236) -/

/-- The quotient `n / d` rounded to the nearest integer, ties to the even one. -/
def roundNearestEven (n d : Nat) : Nat :=
  let q := n / d
  let r := n % d
  if 2 * r < d then q
  else if d < 2 * r then q + 1
  else if q % 2 = 0 then q
  else q + 1

/-- A non-negative binary floating-point value `mant / 2 ^ shift`. -/
structure BinFloat where
  /-- The integer significand. -/
  mant : Nat
  /-- The number of binary places after the point. -/
  shift : Nat
  deriving DecidableEq, Repr

/-- The rational number that a binary floating-point value denotes. -/
def BinFloat.toRat (x : BinFloat) : ℚ := (x.mant : ℚ) / 2 ^ x.shift

/-- Halving loop behind `log2Floor`; `fuel` bounds the number of halvings. -/
def log2FloorAux : Nat → Nat → Nat
  | 0, _ => 0
  | fuel + 1, n => if 2 ≤ n then log2FloorAux fuel (n / 2) + 1 else 0

/-- The position of the leading binary digit of `n` (0 for `n ≤ 1`); it equals
`Nat.log2 n`. -/
def log2Floor (n : Nat) : Nat := log2FloorAux n n

/-- IEEE 754 round-to-nearest-even of the non-negative quotient `n / d` to a
significand of `prec` bits. The binary exponent of a quotient of at least 1 is
`log2Floor (n / d)`; below 1 it is minus the least `k` with `d ≤ n * 2 ^ k`.
The result is scaled so that the significand is an integer. Exponent range is
not limited: every quotient formed by the decoder lies between 0.1 and 6553.5,
inside the normal range of binary32 and binary64 and below `2 ^ (prec - 1)`. -/
def roundBinary (prec n d : Nat) : BinFloat :=
  if n = 0 then ⟨0, 0⟩
  else
    let shift : Nat :=
      if d ≤ n then prec - 1 - log2Floor (n / d)
      else prec - 1 + (log2Floor ((d - 1) / n) + 1)
    ⟨roundNearestEven (n * 2 ^ shift) d, shift⟩

/-- The `double` quotient `n / d` of two integers converted to `double`
(binary64, 53-bit significand), as in `tempRaw / 10.0`. -/
def doubleDiv (n d : Nat) : BinFloat := roundBinary 53 n d

/-- Narrowing of a `double` into a `float` (binary32, 24-bit significand), as
in the store into the globals `float temperature` and `float humidity`. -/
def floatOfDouble (x : BinFloat) : BinFloat := roundBinary 24 x.mant (2 ^ x.shift)

/-! ## readXYMD02Sensor (main.cpp 160-270) -/

/-- The global variables written by `readXYMD02Sensor`. -/
structure SensorState where
  /-- Global `float temperature`. -/
  temperature : ℚ
  /-- Global `float humidity`. -/
  humidity : ℚ
  /-- Global `bool sensorConnected`. -/
  sensorConnected : Bool
  deriving DecidableEq, Repr

/-- Effect of one call of `readXYMD02Sensor`. -/
structure PollResult where
  /-- The globals after the call. -/
  state : SensorState
  /-- The bytes handed to `Serial2.write`. -/
  sent : List Byte
  /-- The lines printed on the debug console, in order. -/
  log : List Msg
  deriving DecidableEq, Repr

/-- The `command` array of `readXYMD02Sensor` after its two checksum bytes have
been filled in (main.cpp 163-177). -/
def buildCommand : List Byte :=
  let command : List Byte := [toByte SENSOR_ADDRESS, 0x04, 0x00, 0x01, 0x00, 0x02, 0x00, 0x00]
  let crc : Nat := calculateCRC command 6
  let command := command.set 6 (toByte (crc &&& 0xFF))
  command.set 7 (toByte ((crc >>> 8) &&& 0xFF))

/-- `void readXYMD02Sensor()`. `s` holds the globals before the call and `rxBuf`
is the content of the `Serial2` receive buffer when the wait loop ends (so
`Serial2.available()` is `rxBuf.length`). The wait itself, the direction pin
(`RS485_DE_PIN` is -1) and the final `clearSerialBuffer` leave the globals and
the console untouched and are not represented. -/
def readXYMD02Sensor (s : SensorState) (rxBuf : List Byte) : PollResult :=
  let command := buildCommand
  let expectedResponseLength : Byte := 9
  let log0 : List Msg := [Msg.tx command, Msg.rxCount rxBuf.length]
  if rxBuf.length ≥ expectedResponseLength.val then
    let response := rxBuf.take expectedResponseLength.val
    let log1 := log0 ++ [Msg.rx response]
    let v := validateModbusResponse response expectedResponseLength
    if v.1 then
      let tempRaw : Nat := toU16 ((rd response 3 <<< 8) ||| rd response 4)
      let temperature : ℚ := (floatOfDouble (doubleDiv tempRaw 10)).toRat
      let humRaw : Nat := toU16 ((rd response 5 <<< 8) ||| rd response 6)
      let humidity : ℚ := (floatOfDouble (doubleDiv humRaw 10)).toRat
      { state := { temperature := temperature, humidity := humidity, sensorConnected := true }
        sent := command
        log := log1 ++ v.2 ++ [Msg.success temperature humidity] }
    else
      { state := { s with sensorConnected := false }
        sent := command
        log := log1 ++ v.2 ++ [Msg.invalidResponse] }
  else if rxBuf.length > 0 then
    let partialResponse := rxBuf
    let bytesRead := rxBuf.length
    let log1 := log0 ++ [Msg.partialResponse partialResponse]
    let log2 :=
      if bytesRead ≥ 3 ∧ rd partialResponse 1 &&& 0x80 ≠ 0 then
        log1 ++ [Msg.modbusException (rd partialResponse 1 &&& 0x7F) (rd partialResponse 2)]
      else log1
    { state := { s with sensorConnected := false }
      sent := command
      log := log2 }
  else
    { state := { s with sensorConnected := false }
      sent := command
      log := log0 ++ [Msg.timeout] }

/-! ## displayComfortStatus (main.cpp 337-360) -/

/-- `void displayComfortStatus()`: the line printed on the display for the
globals `temperature` and `humidity`. -/
def displayComfortStatus (temperature humidity : ℚ) : String :=
  let tempOK : Bool := decide (temperature ≥ TEMP_MIN) && decide (temperature ≤ TEMP_MAX)
  let humidityOK : Bool := decide (humidity ≥ HUMIDITY_MIN) && decide (humidity ≤ HUMIDITY_MAX)
  if tempOK && humidityOK then
    "Status: COMFORT"
  else
    if temperature < TEMP_MIN then
      "Status: TOO COLD"
    else if temperature > TEMP_MAX then
      "Status: TOO HOT"
    else if humidity < HUMIDITY_MIN then
      "Status: TOO DRY"
    else if humidity > HUMIDITY_MAX then
      "Status: TOO HUMID"
    else
      "Status: CHECK"

/-- The body of `displayComfortStatus` (main.cpp 341-359) read over an arbitrary
totally ordered type of readings and arbitrary bounds; `displayComfortStatus`
is its instance at the rationals with the bounds of `config.h`. -/
def displayComfortStatusOver {α : Type} [LinearOrder α]
    (tempMin tempMax humidityMin humidityMax temperature humidity : α) : String :=
  let tempOK : Bool := decide (temperature ≥ tempMin) && decide (temperature ≤ tempMax)
  let humidityOK : Bool := decide (humidity ≥ humidityMin) && decide (humidity ≤ humidityMax)
  if tempOK && humidityOK then
    "Status: COMFORT"
  else
    if temperature < tempMin then
      "Status: TOO COLD"
    else if temperature > tempMax then
      "Status: TOO HOT"
    else if humidity < humidityMin then
      "Status: TOO DRY"
    else if humidity > humidityMax then
      "Status: TOO HUMID"
    else
      "Status: CHECK"

/-- The five definite status lines of `displayComfortStatus`. -/
def definiteStatuses : List String :=
  ["Status: COMFORT", "Status: TOO COLD", "Status: TOO HOT", "Status: TOO DRY",
    "Status: TOO HUMID"]

/-! ## Link tests -/

/-- The `fullCommand` array that `testSensor(address)` of `test/main_test.cpp`
hands to `Serial2.write` (lines 53-61). -/
def testSensor (address : Byte) : List Byte :=
  let command : List Byte := [address, 0x03, 0x00, 0x00, 0x00, 0x02]
  let crc : Nat := calculateCRC command 6
  command ++ [toByte (crc &&& 0xFF), toByte ((crc >>> 8) &&& 0xFF)]

/-- The hard-coded `command` array of `loop` in `test/rs485_test.cpp` (line 24). -/
def rs485TestCommand : List Byte := [0x01, 0x03, 0x00, 0x00, 0x00, 0x02, 0xC4, 0x0B]

/-! ## Fixtures and specification wording used by the statements -/

/-- Specification wording of a register: two bytes read as a signed,
two's-complement 16-bit big-endian integer. -/
def specSigned16BE (hi lo : Nat) : Int :=
  if 256 * hi + lo < 32768 then (256 * hi + lo : Int) else (256 * hi + lo : Int) - 65536

/-- An accepted response carrying 25.0 degrees and 50.0 percent. -/
def roomFrame : List Byte := [0x01, 0x04, 0x04, 0x00, 0xFA, 0x01, 0xF4, 0xDB, 0xA2]

/-- An accepted response carrying the register bytes `FF F6` and `01 F4`. -/
def negativeFrame : List Byte := [0x01, 0x04, 0x04, 0xFF, 0xF6, 0x01, 0xF4, 0x2B, 0xB5]

/-- The nine ASCII bytes of the text `123456789`. -/
def checkInput : List Byte := [0x31, 0x32, 0x33, 0x34, 0x35, 0x36, 0x37, 0x38, 0x39]

/-! ## The loops of calculateCRC compute the specified checksum -/

theorem specShiftStep_lt (acc : Nat) (h : acc < 65536) : specShiftStep acc < 65536 := by
  unfold specShiftStep
  have h3 : acc / 2 < 2 ^ 16 := by omega
  have h4 : (acc / 2) ^^^ 0xA001 < 2 ^ 16 := Nat.xor_lt_two_pow h3 (by decide)
  split <;> omega

theorem specShiftStep_iterate_lt (k acc : Nat) (h : acc < 65536) :
    specShiftStep^[k] acc < 65536 := by
  induction k generalizing acc with
  | zero => simpa using h
  | succ k ih => rw [Function.iterate_succ_apply]; exact ih _ (specShiftStep_lt acc h)

theorem specByteStep_lt (acc : Nat) (b : Byte) (h : acc < 65536) :
    specByteStep acc b < 65536 := by
  unfold specByteStep
  apply specShiftStep_iterate_lt
  have hb : b.val < 2 ^ 16 := by have := b.isLt; omega
  exact Nat.xor_lt_two_pow (n := 16) h hb

theorem foldl_specByteStep_lt (bytes : List Byte) (acc : Nat) (h : acc < 65536) :
    bytes.foldl specByteStep acc < 65536 := by
  induction bytes generalizing acc with
  | nil => simpa using h
  | cons b bs ih => rw [List.foldl_cons]; exact ih _ (specByteStep_lt acc b h)

theorem specCRC16Modbus_lt (bytes : List Byte) : specCRC16Modbus bytes < 65536 :=
  foldl_specByteStep_lt bytes 0xFFFF (by decide)

theorem crcBitBody_eq (crc : Nat) (h : crc < 65536) : crcBitBody crc = specShiftStep crc := by
  unfold crcBitBody specShiftStep toU16
  have h1 : crc &&& 1 = crc % 2 := Nat.and_one_is_mod crc
  have h2 : crc >>> 1 = crc / 2 := by simp [Nat.shiftRight_eq_div_pow]
  have h3 : crc / 2 < 2 ^ 16 := by omega
  have h4 : (crc / 2) ^^^ 0xA001 < 2 ^ 16 := Nat.xor_lt_two_pow h3 (by decide)
  rw [h1, h2]
  by_cases hc : crc % 2 = 1
  · rw [if_pos (by omega), if_pos hc]; omega
  · rw [if_neg (by omega), if_neg hc]; omega

theorem crcBitLoop_eq (j crc : Nat) (hj : j ≤ 8) (h : crc < 65536) :
    crcBitLoop j crc = specShiftStep^[8 - j] crc := by
  generalize hk : 8 - j = k
  induction k generalizing j crc with
  | zero =>
    have : j = 8 := by omega
    subst this
    unfold crcBitLoop
    simp
  | succ k ih =>
    unfold crcBitLoop
    have hj8 : j < 8 := by omega
    have h1 : (j + 1) % 256 = j + 1 := Nat.mod_eq_of_lt (by omega)
    rw [dif_pos hj8, h1, Function.iterate_succ_apply,
      ih (j + 1) _ (by omega) (by rw [crcBitBody_eq crc h]; exact specShiftStep_lt crc h)
        (by omega),
      crcBitBody_eq crc h]

theorem crcByteStep_eq (data : List Byte) (i crc : Nat) (hi : i < data.length)
    (h : crc < 65536) :
    crcBitLoop 0 (toU16 (crc ^^^ rd data i)) = specByteStep crc (data.get ⟨i, hi⟩) := by
  have hb : rd data i = (data.get ⟨i, hi⟩).val := by
    unfold rd
    rw [List.getD_eq_getElem data 0 hi]
    rfl
  have hlt : (data.get ⟨i, hi⟩).val < 2 ^ 16 := by
    have := (data.get ⟨i, hi⟩).isLt; omega
  have hx : crc ^^^ (data.get ⟨i, hi⟩).val < 2 ^ 16 := Nat.xor_lt_two_pow (n := 16) h hlt
  have hu : toU16 (crc ^^^ rd data i) = crc ^^^ (data.get ⟨i, hi⟩).val := by
    unfold toU16; rw [hb]; exact Nat.mod_eq_of_lt hx
  rw [hu, crcBitLoop_eq 0 _ (by omega) hx]
  rfl

theorem crcByteLoop_eq (data : List Byte) (length : Byte) (i crc : Nat)
    (hlen : length.val ≤ data.length) (hi : i ≤ length.val) (h : crc < 65536) :
    crcByteLoop data length i crc
      = ((data.take length.val).drop i).foldl specByteStep crc := by
  generalize hk : length.val - i = k
  induction k generalizing i crc with
  | zero =>
    have hil : i = length.val := by omega
    unfold crcByteLoop
    rw [dif_neg (by omega)]
    have : (data.take length.val).drop i = [] := by
      apply List.drop_eq_nil_of_le
      rw [List.length_take]; omega
    rw [this]; rfl
  | succ k ih =>
    have hlt : i < length.val := by omega
    have hid : i < data.length := by omega
    have h256 : (i + 1) % 256 = i + 1 := Nat.mod_eq_of_lt (by have := length.isLt; omega)
    have hit : i < (data.take length.val).length := by rw [List.length_take]; omega
    unfold crcByteLoop
    rw [dif_pos hlt, h256, crcByteStep_eq data i crc hid h,
      ih (i + 1) _ (by omega) (specByteStep_lt crc _ h) (by omega),
      List.drop_eq_getElem_cons hit, List.foldl_cons]
    congr 2
    simp [List.getElem_take]

theorem calculateCRC_eq_take (data : List Byte) (length : Byte)
    (hlen : length.val ≤ data.length) :
    calculateCRC data length = specCRC16Modbus (data.take length.val) := by
  unfold calculateCRC specCRC16Modbus
  rw [crcByteLoop_eq data length 0 0xFFFF hlen (Nat.zero_le _) (by decide)]
  rfl

/-! ## Checksum contract -/

/-- C1: for every byte sequence `data` of length `n` (`n` a `uint8_t`, so
`0 ≤ n ≤ 255`), `calculateCRC data n` is the CRC-16/Modbus reference value of
the specification (start at 0xFFFF, per byte xor then 8 conditional
shift/xor-0xA001 steps) and is below `2^16`; the empty input gives 0xFFFF and
the bytes of `123456789` give the published check value 0x4B37. -/
theorem calculateCRC_eq_specCRC16Modbus (data : List Byte) (n : Byte)
    (h : data.length = n.val) :
    (calculateCRC data n = specCRC16Modbus data ∧ calculateCRC data n < 2 ^ 16) ∧
      calculateCRC [] 0 = 0xFFFF ∧ calculateCRC checkInput 9 = 0x4B37 := by
  have key : ∀ (d : List Byte) (m : Byte), d.length = m.val →
      calculateCRC d m = specCRC16Modbus d := by
    intro d m hm
    rw [calculateCRC_eq_take d m (by omega), ← hm, List.take_length]
  refine ⟨⟨key data n h, ?_⟩, ?_, ?_⟩
  · rw [key data n h]; exact specCRC16Modbus_lt data
  · rw [key [] 0 rfl]; decide
  · rw [key checkInput 9 rfl]; decide

/-- Witness for C1 at the two-byte input `01 04`. -/
theorem calculateCRC_eq_specCRC16Modbus_witness :
    ([0x01, 0x04] : List Byte).length = (2 : Byte).val ∧
      ((calculateCRC [0x01, 0x04] 2 = specCRC16Modbus [0x01, 0x04] ∧
          calculateCRC [0x01, 0x04] 2 < 2 ^ 16) ∧
        calculateCRC [] 0 = 0xFFFF ∧ calculateCRC checkInput 9 = 0x4B37) :=
  ⟨rfl, calculateCRC_eq_specCRC16Modbus [0x01, 0x04] 2 rfl⟩

/-! ## Byte pairs and 16-bit words -/

theorem or_shiftLeft_eight (lo hi : Nat) (hlo : lo < 256) :
    lo ||| (hi <<< 8) = lo + 256 * hi := by
  rw [Nat.shiftLeft_eq, Nat.or_comm, Nat.mul_comm hi (2 ^ 8),
    ← Nat.mul_add_lt_is_or (i := 8) (by omega) hi]
  omega

theorem toU16_or_shiftLeft_eight (lo hi : Byte) :
    toU16 (lo.val ||| (hi.val <<< 8)) = lo.val + 256 * hi.val := by
  have h1 := lo.isLt
  have h2 := hi.isLt
  rw [or_shiftLeft_eight lo.val hi.val h1]
  unfold toU16
  omega

theorem toU16_shiftLeft_eight_or (hi lo : Byte) :
    toU16 ((hi.val <<< 8) ||| lo.val) = 256 * hi.val + lo.val := by
  rw [Nat.or_comm, toU16_or_shiftLeft_eight]
  omega

theorem toByte_val (n : Nat) : (toByte n).val = n % 256 := rfl

theorem toByte_and_ff (n : Nat) : toByte (n &&& 0xFF) = toByte n := by
  apply Fin.ext
  have h : n &&& 0xFF = n % 2 ^ 8 := Nat.and_pow_two_sub_one_eq_mod n 8
  rw [toByte_val, toByte_val, h]
  omega

theorem toByte_shiftRight_and_ff (n : Nat) : toByte ((n >>> 8) &&& 0xFF) = toByte (n / 256) := by
  rw [toByte_and_ff, Nat.shiftRight_eq_div_pow]

/-! ## Validation of a 9-byte response -/

theorem calculateCRC_nine_seven (b0 b1 b2 b3 b4 b5 b6 b7 b8 : Byte) :
    calculateCRC [b0, b1, b2, b3, b4, b5, b6, b7, b8] 7
      = specCRC16Modbus [b0, b1, b2, b3, b4, b5, b6] := by
  have h : (7 : Byte).val ≤ [b0, b1, b2, b3, b4, b5, b6, b7, b8].length :=
    Nat.le_of_ble_eq_true rfl
  rw [calculateCRC_eq_take _ 7 h]
  rfl

theorem validate_nine_iff (b0 b1 b2 b3 b4 b5 b6 b7 b8 : Byte) :
    (validateModbusResponse [b0, b1, b2, b3, b4, b5, b6, b7, b8] 9).1 = true ↔
      b0.val = 1 ∧ b1.val = 4 ∧ b2.val = 4 ∧
        b7.val + 256 * b8.val = specCRC16Modbus [b0, b1, b2, b3, b4, b5, b6] := by
  have h9 : ¬ ((9 : Byte).val < 5) := by decide
  have h7 : toByte ((9 : Byte).val - 2) = 7 := by decide
  have hr0 : rd [b0, b1, b2, b3, b4, b5, b6, b7, b8] 0 = b0.val := rfl
  have hr1 : rd [b0, b1, b2, b3, b4, b5, b6, b7, b8] 1 = b1.val := rfl
  have hr2 : rd [b0, b1, b2, b3, b4, b5, b6, b7, b8] 2 = b2.val := rfl
  have hr7 : rd [b0, b1, b2, b3, b4, b5, b6, b7, b8] ((9 : Byte).val - 2) = b7.val := rfl
  have hr8 : rd [b0, b1, b2, b3, b4, b5, b6, b7, b8] ((9 : Byte).val - 1) = b8.val := rfl
  unfold validateModbusResponse
  simp only [hr0, hr1, hr2, hr7, hr8, h7, calculateCRC_nine_seven,
    toU16_or_shiftLeft_eight, SENSOR_ADDRESS, if_neg h9]
  by_cases h0 : b0.val = 1
  · by_cases h1 : b1.val = 4
    · by_cases h2 : b2.val = 4
      · by_cases hc : b7.val + 256 * b8.val = specCRC16Modbus [b0, b1, b2, b3, b4, b5, b6]
        · simp [h0, h1, h2, hc]
        · simp [h0, h1, h2, hc]
      · simp [h0, h1, h2]
    · simp [h0, h1]
  · simp [h0]

/-! ## Request frame -/

theorem buildCommand_crc :
    calculateCRC [toByte SENSOR_ADDRESS, 0x04, 0x00, 0x01, 0x00, 0x02, 0x00, 0x00] 6 = 0x0B20 := by
  have h : (6 : Byte).val ≤
      [toByte SENSOR_ADDRESS, (0x04 : Byte), 0x00, 0x01, 0x00, 0x02, 0x00, 0x00].length :=
    Nat.le_of_ble_eq_true rfl
  rw [calculateCRC_eq_take _ 6 h]
  decide

theorem buildCommand_eq : buildCommand = [0x01, 0x04, 0x00, 0x01, 0x00, 0x02, 0x20, 0x0B] := by
  unfold buildCommand
  simp only [buildCommand_crc]
  decide

theorem readXYMD02Sensor_sent (s : SensorState) (rxBuf : List Byte) :
    (readXYMD02Sensor s rxBuf).sent = buildCommand := by
  unfold readXYMD02Sensor
  simp only []
  split
  · split <;> rfl
  · split <;> rfl

/-- C2 (as stated, refuted): the request frame built by `readXYMD02Sensor` is
not `01 04 00 01 00 02 C4 0B`; the low checksum byte of `01 04 00 01 00 02`
is not 0xC4. -/
theorem request_frame_not_C4_0B :
    (readXYMD02Sensor ⟨0, 0, false⟩ []).sent ≠ [0x01, 0x04, 0x00, 0x01, 0x00, 0x02, 0xC4, 0x0B] ∧
      calculateCRC [0x01, 0x04, 0x00, 0x01, 0x00, 0x02] 6 &&& 0xFF ≠ 0xC4 := by
  constructor
  · rw [readXYMD02Sensor_sent, buildCommand_eq]; decide
  · have h : (6 : Byte).val ≤ ([0x01, 0x04, 0x00, 0x01, 0x00, 0x02] : List Byte).length :=
      Nat.le_of_ble_eq_true rfl
    rw [calculateCRC_eq_take _ 6 h]
    decide

/-- C2 (amended): for device address 0x01, register start 0x0001 and register
count 2, the 8-byte request frame that `readXYMD02Sensor` sends is exactly
`01 04 00 01 00 02 20 0B`: `calculateCRC` over `01 04 00 01 00 02` is 0x0B20,
low byte 0x20 and high byte 0x0B. -/
theorem request_frame_eq (s : SensorState) (rxBuf : List Byte) :
    (readXYMD02Sensor s rxBuf).sent = [0x01, 0x04, 0x00, 0x01, 0x00, 0x02, 0x20, 0x0B] ∧
      calculateCRC [0x01, 0x04, 0x00, 0x01, 0x00, 0x02] 6 = 0x0B20 ∧
      (0x0B20 &&& 0xFF = 0x20 ∧ (0x0B20 >>> 8) &&& 0xFF = 0x0B) := by
  refine ⟨?_, ?_, ?_⟩
  · rw [readXYMD02Sensor_sent, buildCommand_eq]
  · have h : (6 : Byte).val ≤ ([0x01, 0x04, 0x00, 0x01, 0x00, 0x02] : List Byte).length :=
      Nat.le_of_ble_eq_true rfl
    rw [calculateCRC_eq_take _ 6 h]
    decide
  · decide

/-! ## Round trip and corruption detection -/

/-- C3: for every four payload bytes, the 9-byte frame
`[SENSOR_ADDRESS, 0x04, 0x04, p0, p1, p2, p3, lo, hi]` whose `lo` and `hi` are
the low and high byte of `calculateCRC` over its first 7 bytes is accepted by
`validateModbusResponse frame 9`. -/
theorem validate_accepts_own_checksum (p0 p1 p2 p3 : Byte) :
    (validateModbusResponse
        [toByte SENSOR_ADDRESS, 0x04, 0x04, p0, p1, p2, p3,
          toByte (calculateCRC [toByte SENSOR_ADDRESS, 0x04, 0x04, p0, p1, p2, p3] 7 % 256),
          toByte (calculateCRC [toByte SENSOR_ADDRESS, 0x04, 0x04, p0, p1, p2, p3] 7 / 256)]
        9).1 = true := by
  have h : (7 : Byte).val ≤ [toByte SENSOR_ADDRESS, (0x04 : Byte), 0x04, p0, p1, p2, p3].length :=
    Nat.le_of_ble_eq_true rfl
  have hc : calculateCRC [toByte SENSOR_ADDRESS, 0x04, 0x04, p0, p1, p2, p3] 7
      = specCRC16Modbus [toByte SENSOR_ADDRESS, 0x04, 0x04, p0, p1, p2, p3] := by
    rw [calculateCRC_eq_take _ 7 h]; rfl
  have hlt := specCRC16Modbus_lt [toByte SENSOR_ADDRESS, 0x04, 0x04, p0, p1, p2, p3]
  rw [validate_nine_iff, hc]
  refine ⟨rfl, rfl, rfl, ?_⟩
  rw [toByte_val, toByte_val]
  omega

theorem specShiftStep_odd_ge (acc : Nat) (h : acc < 65536) (hodd : acc % 2 = 1) :
    2 ^ 15 ≤ specShiftStep acc := by
  unfold specShiftStep
  rw [if_pos hodd]
  apply Nat.testBit_implies_ge
  rw [Nat.testBit_xor, Nat.testBit_lt_two_pow (x := acc / 2) (i := 15) (by omega)]
  decide

theorem specShiftStep_even_lt (acc : Nat) (h : acc < 65536) (heven : ¬ acc % 2 = 1) :
    specShiftStep acc < 2 ^ 15 := by
  unfold specShiftStep
  rw [if_neg heven]
  omega

theorem specShiftStep_inj (a b : Nat) (ha : a < 65536) (hb : b < 65536)
    (h : specShiftStep a = specShiftStep b) : a = b := by
  by_cases hpa : a % 2 = 1
  · by_cases hpb : b % 2 = 1
    · have h2 : a / 2 = b / 2 := by
        unfold specShiftStep at h
        rw [if_pos hpa, if_pos hpb] at h
        have := congrArg (fun x => x ^^^ 0xA001) h
        simpa [Nat.xor_cancel_right] using this
      omega
    · have h1 := specShiftStep_odd_ge a ha hpa
      have h2 := specShiftStep_even_lt b hb hpb
      omega
  · by_cases hpb : b % 2 = 1
    · have h1 := specShiftStep_odd_ge b hb hpb
      have h2 := specShiftStep_even_lt a ha hpa
      omega
    · have h2 : a / 2 = b / 2 := by
        unfold specShiftStep at h
        rw [if_neg hpa, if_neg hpb] at h
        exact h
      omega

theorem specShiftStep_iterate_inj (k a b : Nat) (ha : a < 65536) (hb : b < 65536)
    (h : specShiftStep^[k] a = specShiftStep^[k] b) : a = b := by
  induction k generalizing a b with
  | zero => simpa using h
  | succ k ih =>
    rw [Function.iterate_succ_apply, Function.iterate_succ_apply] at h
    exact specShiftStep_inj a b ha hb
      (ih _ _ (specShiftStep_lt a ha) (specShiftStep_lt b hb) h)

theorem specByteStep_inj_acc (a a' : Nat) (b : Byte) (ha : a < 65536) (ha' : a' < 65536)
    (h : specByteStep a b = specByteStep a' b) : a = a' := by
  have hb : b.val < 2 ^ 16 := by have := b.isLt; omega
  have hx := specShiftStep_iterate_inj 8 _ _
    (Nat.xor_lt_two_pow (n := 16) ha hb) (Nat.xor_lt_two_pow (n := 16) ha' hb) h
  exact Nat.xor_left_injective hx

theorem specByteStep_inj_byte (a : Nat) (b b' : Byte) (ha : a < 65536)
    (h : specByteStep a b = specByteStep a b') : b = b' := by
  have hb : b.val < 2 ^ 16 := by have := b.isLt; omega
  have hb' : b'.val < 2 ^ 16 := by have := b'.isLt; omega
  have hx := specShiftStep_iterate_inj 8 _ _
    (Nat.xor_lt_two_pow (n := 16) ha hb) (Nat.xor_lt_two_pow (n := 16) ha hb') h
  exact Fin.ext (Nat.xor_right_injective hx)

theorem foldl_specByteStep_inj (bytes : List Byte) (a a' : Nat) (ha : a < 65536)
    (ha' : a' < 65536) (h : bytes.foldl specByteStep a = bytes.foldl specByteStep a') :
    a = a' := by
  induction bytes generalizing a a' with
  | nil => simpa using h
  | cons b bs ih =>
    rw [List.foldl_cons, List.foldl_cons] at h
    exact specByteStep_inj_acc a a' b ha ha'
      (ih _ _ (specByteStep_lt a b ha) (specByteStep_lt a' b ha') h)

/-- Replacing one byte of a message changes its checksum. -/
theorem specCRC16Modbus_inj_byte (pre post : List Byte) (b b' : Byte)
    (h : specCRC16Modbus (pre ++ b :: post) = specCRC16Modbus (pre ++ b' :: post)) :
    b = b' := by
  unfold specCRC16Modbus at h
  rw [List.foldl_append, List.foldl_append, List.foldl_cons, List.foldl_cons] at h
  have hpre := foldl_specByteStep_lt pre 0xFFFF (by decide)
  exact specByteStep_inj_byte _ b b' hpre
    (foldl_specByteStep_inj post _ _ (specByteStep_lt _ b hpre) (specByteStep_lt _ b' hpre) h)

theorem list_length_nine (l : List Byte) (h : l.length = 9) :
    ∃ b0 b1 b2 b3 b4 b5 b6 b7 b8, l = [b0, b1, b2, b3, b4, b5, b6, b7, b8] := by
  match l, h with
  | [b0, b1, b2, b3, b4, b5, b6, b7, b8], _ => exact ⟨b0, b1, b2, b3, b4, b5, b6, b7, b8, rfl⟩

/-- C4: single-byte corruption is always detected. For every 9-byte frame
accepted by `validateModbusResponse frame 9`, every position `i` in `0..8` and
every byte `v` other than `frame[i]`, the frame with byte `i` replaced by `v`
is rejected; no position is exempt. -/
theorem single_byte_corruption_rejected (frame : List Byte) (hlen : frame.length = 9)
    (hacc : (validateModbusResponse frame 9).1 = true) (i : Nat) (hi : i < 9) (v : Byte)
    (hv : v ≠ frame.getD i 0) :
    (validateModbusResponse (frame.set i v) 9).1 = false := by
  obtain ⟨b0, b1, b2, b3, b4, b5, b6, b7, b8, rfl⟩ := list_length_nine frame hlen
  rw [validate_nine_iff] at hacc
  obtain ⟨h0, h1, h2, hc⟩ := hacc
  rw [Bool.eq_false_iff]
  intro hacc'
  have hvv : ∀ b : Byte, v ≠ b → v.val ≠ b.val := fun b hne hval => hne (Fin.ext hval)
  interval_cases i
  · have hne := hvv b0 hv
    have h' := (validate_nine_iff v b1 b2 b3 b4 b5 b6 b7 b8).1 hacc'
    omega
  · have hne := hvv b1 hv
    have h' := (validate_nine_iff b0 v b2 b3 b4 b5 b6 b7 b8).1 hacc'
    omega
  · have hne := hvv b2 hv
    have h' := (validate_nine_iff b0 b1 v b3 b4 b5 b6 b7 b8).1 hacc'
    omega
  · have h' := (validate_nine_iff b0 b1 b2 v b4 b5 b6 b7 b8).1 hacc'
    exact hv (specCRC16Modbus_inj_byte [b0, b1, b2] [b4, b5, b6] v b3 (by
      show specCRC16Modbus [b0, b1, b2, v, b4, b5, b6] = specCRC16Modbus [b0, b1, b2, b3, b4, b5, b6]
      omega))
  · have h' := (validate_nine_iff b0 b1 b2 b3 v b5 b6 b7 b8).1 hacc'
    exact hv (specCRC16Modbus_inj_byte [b0, b1, b2, b3] [b5, b6] v b4 (by
      show specCRC16Modbus [b0, b1, b2, b3, v, b5, b6] = specCRC16Modbus [b0, b1, b2, b3, b4, b5, b6]
      omega))
  · have h' := (validate_nine_iff b0 b1 b2 b3 b4 v b6 b7 b8).1 hacc'
    exact hv (specCRC16Modbus_inj_byte [b0, b1, b2, b3, b4] [b6] v b5 (by
      show specCRC16Modbus [b0, b1, b2, b3, b4, v, b6] = specCRC16Modbus [b0, b1, b2, b3, b4, b5, b6]
      omega))
  · have h' := (validate_nine_iff b0 b1 b2 b3 b4 b5 v b7 b8).1 hacc'
    exact hv (specCRC16Modbus_inj_byte [b0, b1, b2, b3, b4, b5] [] v b6 (by
      show specCRC16Modbus [b0, b1, b2, b3, b4, b5, v] = specCRC16Modbus [b0, b1, b2, b3, b4, b5, b6]
      omega))
  · have hne := hvv b7 hv
    have h' := (validate_nine_iff b0 b1 b2 b3 b4 b5 b6 v b8).1 hacc'
    have := v.isLt
    have := b7.isLt
    omega
  · have hne := hvv b8 hv
    have h' := (validate_nine_iff b0 b1 b2 b3 b4 b5 b6 b7 v).1 hacc'
    omega

/-- Witness for C4: the accepted frame `01 04 04 00 FA 01 F4 DB A2` with byte 4
replaced by 0xFB. -/
theorem single_byte_corruption_rejected_witness :
    ([0x01, 0x04, 0x04, 0x00, 0xFA, 0x01, 0xF4, 0xDB, 0xA2] : List Byte).length = 9 ∧
      (validateModbusResponse [0x01, 0x04, 0x04, 0x00, 0xFA, 0x01, 0xF4, 0xDB, 0xA2] 9).1 = true ∧
      4 < 9 ∧
      (0xFB : Byte) ≠ ([0x01, 0x04, 0x04, 0x00, 0xFA, 0x01, 0xF4, 0xDB, 0xA2] : List Byte).getD 4 0 ∧
      (validateModbusResponse
        (([0x01, 0x04, 0x04, 0x00, 0xFA, 0x01, 0xF4, 0xDB, 0xA2] : List Byte).set 4 0xFB) 9).1
          = false :=
  have hacc : (validateModbusResponse
      [0x01, 0x04, 0x04, 0x00, 0xFA, 0x01, 0xF4, 0xDB, 0xA2] 9).1 = true :=
    (validate_nine_iff 0x01 0x04 0x04 0x00 0xFA 0x01 0xF4 0xDB 0xA2).2 (by decide)
  ⟨rfl, hacc, by decide, by decide,
    single_byte_corruption_rejected [0x01, 0x04, 0x04, 0x00, 0xFA, 0x01, 0xF4, 0xDB, 0xA2]
      rfl hacc 4 (by decide) 0xFB (by decide)⟩

/-! ## Rounding error of the decoder arithmetic -/

theorem log2FloorAux_eq (fuel n : Nat) (h : n ≤ fuel) : log2FloorAux fuel n = Nat.log2 n := by
  induction fuel generalizing n with
  | zero =>
    have hn : n = 0 := by omega
    subst hn
    rw [Nat.log2]
    rfl
  | succ fuel ih =>
    rw [Nat.log2]
    unfold log2FloorAux
    by_cases h2 : 2 ≤ n
    · rw [if_pos h2, if_pos h2, ih (n / 2) (by omega)]
    · rw [if_neg h2, if_neg h2]

theorem log2Floor_eq (n : Nat) : log2Floor n = Nat.log2 n :=
  log2FloorAux_eq n n (Nat.le_refl n)

theorem roundNearestEven_bounds (n d : Nat) (hd : 0 < d) :
    2 * (d * roundNearestEven n d) ≤ 2 * n + d ∧ 2 * n ≤ 2 * (d * roundNearestEven n d) + d := by
  have hdiv : d * (n / d) + n % d = n := Nat.div_add_mod n d
  have hmod : n % d < d := Nat.mod_lt n hd
  unfold roundNearestEven
  simp only []
  generalize n / d = q at hdiv ⊢
  generalize n % d = r at hdiv hmod ⊢
  have hq1 : d * (q + 1) = d * q + d := by ring
  split
  · constructor <;> omega
  · split
    · rw [hq1]; constructor <;> omega
    · split
      · constructor <;> omega
      · rw [hq1]; constructor <;> omega

theorem roundBinary_error (prec n d : Nat) (hd : 0 < d) :
    |(roundBinary prec n d).toRat - (n : ℚ) / d|
      ≤ 1 / (2 * 2 ^ (roundBinary prec n d).shift) := by
  have hdq : (0 : ℚ) < d := by exact_mod_cast hd
  by_cases hn : n = 0
  · subst hn
    have h0 : roundBinary prec 0 d = ⟨0, 0⟩ := by unfold roundBinary; simp
    rw [h0]
    simp [BinFloat.toRat]
  · obtain ⟨s, hs⟩ : ∃ s, roundBinary prec n d = ⟨roundNearestEven (n * 2 ^ s) d, s⟩ := by
      unfold roundBinary
      rw [if_neg hn]
      exact ⟨_, rfl⟩
    rw [hs]
    simp only [BinFloat.toRat]
    obtain ⟨h1, h2⟩ := roundNearestEven_bounds (n * 2 ^ s) d hd
    generalize roundNearestEven (n * 2 ^ s) d = R at h1 h2 ⊢
    have hP : (0 : ℚ) < 2 ^ s := by positivity
    have h1q : (2 : ℚ) * (d * R) ≤ 2 * (n * 2 ^ s) + d := by exact_mod_cast h1
    have h2q : (2 : ℚ) * (n * 2 ^ s) ≤ 2 * (d * R) + d := by exact_mod_cast h2
    have key : (R : ℚ) / 2 ^ s - (n : ℚ) / d = (d * R - n * 2 ^ s) / (2 ^ s * d) := by
      field_simp
      ring
    rw [key, abs_le]
    constructor
    · rw [le_div_iff₀ (by positivity)]
      have : -(1 / (2 * (2 : ℚ) ^ s)) * (2 ^ s * d) = -(d / 2) := by field_simp; ring
      rw [this]
      linarith
    · rw [div_le_iff₀ (by positivity)]
      have : 1 / (2 * (2 : ℚ) ^ s) * (2 ^ s * d) = d / 2 := by field_simp; ring
      rw [this]
      linarith

theorem roundBinary_shift_ge (prec n d : Nat) (hn : n ≠ 0) (hd : 0 < d)
    (hprec : 13 ≤ prec) (hlt : n < 2 ^ 13 * d) :
    prec - 13 ≤ (roundBinary prec n d).shift := by
  unfold roundBinary
  rw [if_neg hn]
  simp only []
  split
  · rename_i hle
    have hq : n / d ≠ 0 := by
      have : 0 < n / d := Nat.div_pos hle hd
      omega
    have hq13 : n / d < 2 ^ 13 := by
      rw [Nat.div_lt_iff_lt_mul hd]; exact hlt
    have hlog : log2Floor (n / d) < 13 := by
      rw [log2Floor_eq]; exact (Nat.log2_lt hq).2 hq13
    omega
  · omega

theorem roundBinary_error_le (prec n d : Nat) (hd : 0 < d) (hprec : 13 ≤ prec)
    (hlt : n < 2 ^ 13 * d) :
    |(roundBinary prec n d).toRat - (n : ℚ) / d| ≤ 1 / 2 ^ (prec - 12) := by
  by_cases hn : n = 0
  · subst hn
    have h0 : roundBinary prec 0 d = ⟨0, 0⟩ := by unfold roundBinary; simp
    rw [h0]
    simp [BinFloat.toRat]
  · refine le_trans (roundBinary_error prec n d hd) ?_
    have hs := roundBinary_shift_ge prec n d hn hd hprec hlt
    have h2 : (2 : ℚ) * 2 ^ (roundBinary prec n d).shift = 2 ^ ((roundBinary prec n d).shift + 1) := by
      rw [pow_succ]; ring
    rw [h2]
    apply one_div_le_one_div_of_le (by positivity)
    exact pow_le_pow_right₀ (by norm_num) (by omega)

theorem toRat_lt_of_error (x : BinFloat) (q e : ℚ) (h : |x.toRat - q| ≤ e) (hq : q + e < 2 ^ 13) :
    x.mant < 2 ^ 13 * 2 ^ x.shift := by
  have hlt : x.toRat < 2 ^ 13 := by
    have := (abs_le.1 h).2
    linarith
  unfold BinFloat.toRat at hlt
  rw [div_lt_iff₀ (by positivity)] at hlt
  exact_mod_cast hlt

theorem storedReading_error (raw : Nat) (h : raw < 65536) :
    |(floatOfDouble (doubleDiv raw 10)).toRat - (raw : ℚ) / 10| ≤ 1 / 2 ^ 12 + 1 / 2 ^ 41 := by
  have hD : |(doubleDiv raw 10).toRat - (raw : ℚ) / 10| ≤ 1 / 2 ^ 41 := by
    have := roundBinary_error_le 53 raw 10 (by decide) (by decide) (by omega)
    exact_mod_cast this
  have hraw : (raw : ℚ) / 10 + 1 / 2 ^ 41 < 2 ^ 13 := by
    have : (raw : ℚ) < 65536 := by exact_mod_cast h
    norm_num
    linarith
  have hm := toRat_lt_of_error (doubleDiv raw 10) _ _ hD hraw
  have hF := roundBinary_error_le 24 (doubleDiv raw 10).mant (2 ^ (doubleDiv raw 10).shift)
    (by positivity) (by decide) hm
  have hF2 : |(floatOfDouble (doubleDiv raw 10)).toRat - (doubleDiv raw 10).toRat|
      ≤ 1 / 2 ^ 12 := by
    unfold floatOfDouble BinFloat.toRat at *
    push_cast at hF
    exact hF
  calc |(floatOfDouble (doubleDiv raw 10)).toRat - (raw : ℚ) / 10|
      = |((floatOfDouble (doubleDiv raw 10)).toRat - (doubleDiv raw 10).toRat)
          + ((doubleDiv raw 10).toRat - (raw : ℚ) / 10)| := by ring_nf
    _ ≤ |(floatOfDouble (doubleDiv raw 10)).toRat - (doubleDiv raw 10).toRat|
          + |(doubleDiv raw 10).toRat - (raw : ℚ) / 10| := abs_add _ _
    _ ≤ 1 / 2 ^ 12 + 1 / 2 ^ 41 := add_le_add hF2 hD

theorem roundNearestEven_mul (d q : Nat) (hd : 0 < d) : roundNearestEven (d * q) d = q := by
  unfold roundNearestEven
  simp only [Nat.mul_mod_right, Nat.mul_div_cancel_left q hd]
  rw [if_pos (by omega)]

theorem roundBinary_exact (prec n d : Nat) (hd : 0 < d)
    (hdvd : d ∣ n * 2 ^ (roundBinary prec n d).shift) :
    (roundBinary prec n d).toRat = (n : ℚ) / d := by
  have hdq : (d : ℚ) ≠ 0 := by exact_mod_cast (Nat.pos_iff_ne_zero.1 hd)
  by_cases hn : n = 0
  · subst hn
    have h0 : roundBinary prec 0 d = ⟨0, 0⟩ := by unfold roundBinary; simp
    rw [h0]
    simp [BinFloat.toRat]
  · obtain ⟨s, hs⟩ : ∃ s, roundBinary prec n d = ⟨roundNearestEven (n * 2 ^ s) d, s⟩ := by
      unfold roundBinary
      rw [if_neg hn]
      exact ⟨_, rfl⟩
    rw [hs] at hdvd ⊢
    obtain ⟨k, hk⟩ := hdvd
    simp only [BinFloat.toRat]
    simp only [] at hk
    rw [hk, roundNearestEven_mul d k hd]
    have hkq : (n : ℚ) * 2 ^ s = d * k := by exact_mod_cast hk
    have hP : (2 : ℚ) ^ s ≠ 0 := by positivity
    field_simp
    linarith

theorem toRat_eq_imp_five_dvd (x : BinFloat) (raw : Nat) (h : x.toRat = (raw : ℚ) / 10) :
    5 ∣ raw := by
  unfold BinFloat.toRat at h
  have hP : (2 : ℚ) ^ x.shift ≠ 0 := by positivity
  field_simp at h
  have hN : x.mant * 10 = raw * 2 ^ x.shift := by exact_mod_cast h
  have h5 : 5 ∣ raw * 2 ^ x.shift := ⟨x.mant * 2, by omega⟩
  have hco : Nat.Coprime 5 (2 ^ x.shift) := Nat.Coprime.pow_right _ (by decide)
  exact hco.dvd_of_dvd_mul_right h5

theorem storedReading_exact_iff (raw : Nat) (h : raw < 65536) :
    (floatOfDouble (doubleDiv raw 10)).toRat = (raw : ℚ) / 10 ↔ 5 ∣ raw := by
  constructor
  · exact toRat_eq_imp_five_dvd _ raw
  · rintro ⟨m, rfl⟩
    by_cases hm : m = 0
    · subst hm
      have h0 : floatOfDouble (doubleDiv (5 * 0) 10) = ⟨0, 0⟩ := rfl
      rw [h0]
      simp [BinFloat.toRat]
    · have hsD := roundBinary_shift_ge 53 (5 * m) 10 (by omega) (by decide) (by decide)
        (by omega)
      have hD : (doubleDiv (5 * m) 10).toRat = ((5 * m : Nat) : ℚ) / 10 := by
        apply roundBinary_exact 53 (5 * m) 10 (by decide)
        refine ⟨m * 2 ^ ((roundBinary 53 (5 * m) 10).shift - 1), ?_⟩
        have hs : (roundBinary 53 (5 * m) 10).shift
            = ((roundBinary 53 (5 * m) 10).shift - 1) + 1 := by omega
        generalize (roundBinary 53 (5 * m) 10).shift - 1 = j at hs ⊢
        rw [hs, pow_succ]
        ring
      have hmant : 2 * (doubleDiv (5 * m) 10).mant = m * 2 ^ (doubleDiv (5 * m) 10).shift := by
        have hP : (2 : ℚ) ^ (doubleDiv (5 * m) 10).shift ≠ 0 := by positivity
        unfold BinFloat.toRat at hD
        push_cast at hD
        field_simp at hD
        have h10 : (doubleDiv (5 * m) 10).mant * 10
            = 5 * m * 2 ^ (doubleDiv (5 * m) 10).shift := by
          exact_mod_cast hD
        have h10b : (doubleDiv (5 * m) 10).mant * 10
            = 5 * (m * 2 ^ (doubleDiv (5 * m) 10).shift) := by
          rw [h10]; ring
        omega
      have hlt : (doubleDiv (5 * m) 10).mant < 2 ^ 13 * 2 ^ (doubleDiv (5 * m) 10).shift := by
        have hpos : 0 < 2 ^ (doubleDiv (5 * m) 10).shift := by positivity
        have hle : m * 2 ^ (doubleDiv (5 * m) 10).shift
            ≤ 13107 * 2 ^ (doubleDiv (5 * m) 10).shift :=
          Nat.mul_le_mul_right _ (by omega)
        omega
      have hsF := roundBinary_shift_ge 24 (doubleDiv (5 * m) 10).mant
        (2 ^ (doubleDiv (5 * m) 10).shift)
        (by
          have : 0 < 2 ^ (doubleDiv (5 * m) 10).shift := by positivity
          have : 0 < m * 2 ^ (doubleDiv (5 * m) 10).shift := Nat.mul_pos (by omega) this
          omega)
        (by positivity) (by decide) hlt
      have hF : (floatOfDouble (doubleDiv (5 * m) 10)).toRat
          = ((doubleDiv (5 * m) 10).mant : ℚ)
              / ((2 ^ (doubleDiv (5 * m) 10).shift : Nat) : ℚ) := by
        apply roundBinary_exact 24 _ _ (by positivity)
        refine ⟨m * 2 ^ ((roundBinary 24 (doubleDiv (5 * m) 10).mant
          (2 ^ (doubleDiv (5 * m) 10).shift)).shift - 1), ?_⟩
        have hs : (roundBinary 24 (doubleDiv (5 * m) 10).mant
            (2 ^ (doubleDiv (5 * m) 10).shift)).shift
            = ((roundBinary 24 (doubleDiv (5 * m) 10).mant
                (2 ^ (doubleDiv (5 * m) 10).shift)).shift - 1) + 1 := by omega
        generalize (roundBinary 24 (doubleDiv (5 * m) 10).mant
            (2 ^ (doubleDiv (5 * m) 10).shift)).shift - 1 = j at hs ⊢
        rw [hs, pow_succ]
        calc (doubleDiv (5 * m) 10).mant * (2 ^ j * 2)
            = 2 * (doubleDiv (5 * m) 10).mant * 2 ^ j := by ring
          _ = m * 2 ^ (doubleDiv (5 * m) 10).shift * 2 ^ j := by rw [hmant]
          _ = 2 ^ (doubleDiv (5 * m) 10).shift * (m * 2 ^ j) := by ring
      rw [hF, ← hD]
      unfold BinFloat.toRat
      push_cast
      rfl

/-! ## One poll -/

theorem rd_lt (data : List Byte) (i : Nat) : rd data i < 256 := (data.getD i 0).isLt

theorem toU16_register (data : List Byte) (i j : Nat) :
    toU16 ((rd data i <<< 8) ||| rd data j) = 256 * rd data i + rd data j := by
  have h1 := rd_lt data i
  have h2 := rd_lt data j
  rw [Nat.or_comm, or_shiftLeft_eight (rd data j) (rd data i) h2]
  unfold toU16
  omega

theorem readXYMD02Sensor_accept (s : SensorState) (rxBuf : List Byte) (hlen : 9 ≤ rxBuf.length)
    (hacc : (validateModbusResponse (rxBuf.take 9) 9).1 = true) :
    (readXYMD02Sensor s rxBuf).state =
      { temperature :=
          (floatOfDouble (doubleDiv (256 * rd (rxBuf.take 9) 3 + rd (rxBuf.take 9) 4) 10)).toRat
        humidity :=
          (floatOfDouble (doubleDiv (256 * rd (rxBuf.take 9) 5 + rd (rxBuf.take 9) 6) 10)).toRat
        sensorConnected := true } := by
  have h9 : (9 : Byte).val = 9 := rfl
  unfold readXYMD02Sensor
  simp only [h9, ge_iff_le, if_pos hlen, hacc, if_true, toU16_register]

theorem readXYMD02Sensor_reject (s : SensorState) (rxBuf : List Byte) (hlen : 9 ≤ rxBuf.length)
    (hrej : (validateModbusResponse (rxBuf.take 9) 9).1 = false) :
    (readXYMD02Sensor s rxBuf).state = { s with sensorConnected := false } := by
  have h9 : (9 : Byte).val = 9 := rfl
  unfold readXYMD02Sensor
  simp only [h9, ge_iff_le, if_pos hlen, hrej]
  rfl

theorem readXYMD02Sensor_short (s : SensorState) (rxBuf : List Byte) (hlen : rxBuf.length < 9) :
    (readXYMD02Sensor s rxBuf).state = { s with sensorConnected := false } := by
  have h9 : (9 : Byte).val = 9 := rfl
  have hn : ¬ 9 ≤ rxBuf.length := by omega
  unfold readXYMD02Sensor
  simp only [h9, ge_iff_le, if_neg hn]
  split <;> rfl

theorem rd_take_nine (rxBuf : List Byte) (i : Nat) (hi : i < 9) :
    rd (rxBuf.take 9) i = rd rxBuf i := by
  unfold rd
  congr 1
  rw [List.getD_eq_getElem?_getD, List.getD_eq_getElem?_getD, List.getElem?_take_of_lt hi]

theorem negativeFrame_accepted : (validateModbusResponse negativeFrame 9).1 = true :=
  (validate_nine_iff 0x01 0x04 0x04 0xFF 0xF6 0x01 0xF4 0x2B 0xB5).2 (by decide)

/-- C5 (as stated, refuted): the accepted response
`01 04 04 FF F6 01 F4 2B B5` carries the register bytes `FF F6`, whose signed
reading divided by 10 is -1.0, but the `float` that `readXYMD02Sensor` stores
as temperature is 6552.60009765625 (13419725 / 2048). -/
theorem decode_FF_F6_not_minus_one :
    (validateModbusResponse negativeFrame 9).1 = true ∧
      ((specSigned16BE 0xFF 0xF6 : Int) : ℚ) / 10 = -1 ∧
      (readXYMD02Sensor ⟨0, 0, false⟩ negativeFrame).state.temperature = 13419725 / 2048 ∧
      (readXYMD02Sensor ⟨0, 0, false⟩ negativeFrame).state.temperature
        ≠ ((specSigned16BE 0xFF 0xF6 : Int) : ℚ) / 10 := by
  have ht : (readXYMD02Sensor ⟨0, 0, false⟩ negativeFrame).state.temperature
      = 13419725 / 2048 := by
    rw [readXYMD02Sensor_accept _ negativeFrame (by decide) negativeFrame_accepted]
    have hU : 256 * rd (negativeFrame.take 9) 3 + rd (negativeFrame.take 9) 4 = 65526 := by
      decide
    have hv : floatOfDouble (doubleDiv 65526 10) = ⟨13419725, 11⟩ := by decide
    show (floatOfDouble (doubleDiv (256 * rd (negativeFrame.take 9) 3
        + rd (negativeFrame.take 9) 4) 10)).toRat = 13419725 / 2048
    rw [hU, hv]
    unfold BinFloat.toRat
    norm_num
  have hs : ((specSigned16BE 0xFF 0xF6 : Int) : ℚ) / 10 = -1 := by
    have : specSigned16BE 0xFF 0xF6 = -10 := by decide
    rw [this]; norm_num
  refine ⟨negativeFrame_accepted, hs, ht, ?_⟩
  rw [ht, hs]
  norm_num

/-- C5 (amended): for every receive buffer whose first 9 bytes are accepted by
`validateModbusResponse`, the reading stored by `readXYMD02Sensor` is
temperature = the binary32 `float` obtained from (bytes 3..4 read as an
unsigned 16-bit big-endian integer) / 10 by the binary64 division and the
narrowing to `float`, both rounded to nearest even, and humidity = the same for
bytes 5..6. Each stored value lies within `2^-12 + 2^-41` of the exact quotient
and equals it exactly when and only when the register is a multiple of 5. The
unsigned register is the signed two's-complement one whenever its high byte is
below 0x80. In particular register bytes `00 FA` decode to exactly 25.0,
`00 FB` to 13159629 / 524288 (25.100000381469727) and `FF F6` to
13419725 / 2048 (6552.60009765625). -/
theorem decode_unsigned_float (s : SensorState) (rxBuf : List Byte) (hlen : 9 ≤ rxBuf.length)
    (hacc : (validateModbusResponse (rxBuf.take 9) 9).1 = true) :
    ((readXYMD02Sensor s rxBuf).state.temperature
        = (floatOfDouble (doubleDiv (256 * rd rxBuf 3 + rd rxBuf 4) 10)).toRat ∧
      (readXYMD02Sensor s rxBuf).state.humidity
        = (floatOfDouble (doubleDiv (256 * rd rxBuf 5 + rd rxBuf 6) 10)).toRat) ∧
    (|(readXYMD02Sensor s rxBuf).state.temperature
          - ((256 * rd rxBuf 3 + rd rxBuf 4 : Nat) : ℚ) / 10| ≤ 1 / 2 ^ 12 + 1 / 2 ^ 41 ∧
      |(readXYMD02Sensor s rxBuf).state.humidity
          - ((256 * rd rxBuf 5 + rd rxBuf 6 : Nat) : ℚ) / 10| ≤ 1 / 2 ^ 12 + 1 / 2 ^ 41) ∧
    (((readXYMD02Sensor s rxBuf).state.temperature
          = ((256 * rd rxBuf 3 + rd rxBuf 4 : Nat) : ℚ) / 10 ↔
        5 ∣ 256 * rd rxBuf 3 + rd rxBuf 4) ∧
      ((readXYMD02Sensor s rxBuf).state.humidity
          = ((256 * rd rxBuf 5 + rd rxBuf 6 : Nat) : ℚ) / 10 ↔
        5 ∣ 256 * rd rxBuf 5 + rd rxBuf 6)) ∧
    ((rd rxBuf 3 < 0x80 →
        specSigned16BE (rd rxBuf 3) (rd rxBuf 4) = ((256 * rd rxBuf 3 + rd rxBuf 4 : Nat) : Int)) ∧
      (rd rxBuf 5 < 0x80 →
        specSigned16BE (rd rxBuf 5) (rd rxBuf 6)
          = ((256 * rd rxBuf 5 + rd rxBuf 6 : Nat) : Int))) ∧
    (rd rxBuf 3 = 0x00 → rd rxBuf 4 = 0xFA →
      (readXYMD02Sensor s rxBuf).state.temperature = 25) ∧
    (rd rxBuf 3 = 0x00 → rd rxBuf 4 = 0xFB →
      (readXYMD02Sensor s rxBuf).state.temperature = 13159629 / 524288) ∧
    (rd rxBuf 3 = 0xFF → rd rxBuf 4 = 0xF6 →
      (readXYMD02Sensor s rxBuf).state.temperature = 13419725 / 2048) := by
  have hst := readXYMD02Sensor_accept s rxBuf hlen hacc
  rw [rd_take_nine rxBuf 3 (by omega), rd_take_nine rxBuf 4 (by omega),
    rd_take_nine rxBuf 5 (by omega), rd_take_nine rxBuf 6 (by omega)] at hst
  have hreg : ∀ i j : Nat, 256 * rd rxBuf i + rd rxBuf j < 65536 := by
    intro i j
    have h1 := rd_lt rxBuf i
    have h2 := rd_lt rxBuf j
    omega
  have hsigned : ∀ hi lo : Nat, hi < 0x80 → lo < 256 →
      specSigned16BE hi lo = ((256 * hi + lo : Nat) : Int) := by
    intro hi lo hhi hlo
    unfold specSigned16BE
    rw [if_pos (by omega)]
    push_cast
    rfl
  rw [hst]
  refine ⟨⟨rfl, rfl⟩, ⟨?_, ?_⟩, ⟨?_, ?_⟩, ⟨?_, ?_⟩, ?_, ?_, ?_⟩
  · exact storedReading_error _ (hreg 3 4)
  · exact storedReading_error _ (hreg 5 6)
  · exact storedReading_exact_iff _ (hreg 3 4)
  · exact storedReading_exact_iff _ (hreg 5 6)
  · intro h3
    exact hsigned _ _ h3 (rd_lt rxBuf 4)
  · intro h5
    exact hsigned _ _ h5 (rd_lt rxBuf 6)
  · intro h3 h4
    show (floatOfDouble (doubleDiv (256 * rd rxBuf 3 + rd rxBuf 4) 10)).toRat = 25
    rw [h3, h4]
    have hv : floatOfDouble (doubleDiv (256 * 0x00 + 0xFA) 10) = ⟨13107200, 19⟩ := by decide
    rw [hv]
    unfold BinFloat.toRat
    norm_num
  · intro h3 h4
    show (floatOfDouble (doubleDiv (256 * rd rxBuf 3 + rd rxBuf 4) 10)).toRat
      = 13159629 / 524288
    rw [h3, h4]
    have hv : floatOfDouble (doubleDiv (256 * 0x00 + 0xFB) 10) = ⟨13159629, 19⟩ := by decide
    rw [hv]
    unfold BinFloat.toRat
    norm_num
  · intro h3 h4
    show (floatOfDouble (doubleDiv (256 * rd rxBuf 3 + rd rxBuf 4) 10)).toRat
      = 13419725 / 2048
    rw [h3, h4]
    have hv : floatOfDouble (doubleDiv (256 * 0xFF + 0xF6) 10) = ⟨13419725, 11⟩ := by decide
    rw [hv]
    unfold BinFloat.toRat
    norm_num

theorem roomFrame_accepted : (validateModbusResponse (roomFrame.take 9) 9).1 = true :=
  (validate_nine_iff 0x01 0x04 0x04 0x00 0xFA 0x01 0xF4 0xDB 0xA2).2 (by decide)

/-- Witness for C5 (amended) at the accepted response
`01 04 04 00 FA 01 F4 DB A2`. -/
theorem decode_unsigned_float_witness :
    9 ≤ roomFrame.length ∧ (validateModbusResponse (roomFrame.take 9) 9).1 = true ∧
      (readXYMD02Sensor ⟨0, 0, false⟩ roomFrame).state.temperature = 25 :=
  ⟨by decide, roomFrame_accepted,
    (decode_unsigned_float ⟨0, 0, false⟩ roomFrame (by decide) roomFrame_accepted).2.2.2.2.1
      rfl rfl⟩

/-- C6: after one poll, whatever the globals were before, `sensorConnected` is
true if and only if at least 9 bytes were available and the first 9 pass
`validateModbusResponse`; it is false after a timeout (0 bytes), after a
partial response (1..8 bytes) and after a 9-byte frame that fails validation. -/
theorem sensorConnected_iff (s : SensorState) (rxBuf : List Byte) :
    ((readXYMD02Sensor s rxBuf).state.sensorConnected = true ↔
        9 ≤ rxBuf.length ∧ (validateModbusResponse (rxBuf.take 9) 9).1 = true) ∧
      (rxBuf.length = 0 → (readXYMD02Sensor s rxBuf).state.sensorConnected = false) ∧
      (1 ≤ rxBuf.length ∧ rxBuf.length ≤ 8 →
        (readXYMD02Sensor s rxBuf).state.sensorConnected = false) ∧
      (9 ≤ rxBuf.length → (validateModbusResponse (rxBuf.take 9) 9).1 = false →
        (readXYMD02Sensor s rxBuf).state.sensorConnected = false) := by
  refine ⟨?_, ?_, ?_, ?_⟩
  · by_cases hlen : 9 ≤ rxBuf.length
    · cases hv : (validateModbusResponse (rxBuf.take 9) 9).1
      · rw [readXYMD02Sensor_reject s rxBuf hlen hv]
        simp
      · rw [readXYMD02Sensor_accept s rxBuf hlen hv]
        simp [hlen]
    · rw [readXYMD02Sensor_short s rxBuf (by omega)]
      simp [hlen]
  · intro h0
    rw [readXYMD02Sensor_short s rxBuf (by omega)]
  · intro h18
    rw [readXYMD02Sensor_short s rxBuf (by omega)]
  · intro hlen hv
    rw [readXYMD02Sensor_reject s rxBuf hlen hv]

/-- Witness for C6: a poll that starts disconnected and receives the accepted
response `01 04 04 00 FA 01 F4 DB A2` ends connected. -/
theorem sensorConnected_iff_witness :
    (readXYMD02Sensor ⟨0, 0, false⟩ roomFrame).state.sensorConnected = true :=
  (sensorConnected_iff ⟨0, 0, false⟩ roomFrame).1.2 ⟨by decide, roomFrame_accepted⟩

/-! ## Partial responses -/

theorem readXYMD02Sensor_partial_log (s : SensorState) (rxBuf : List Byte)
    (h0 : 0 < rxBuf.length) (h9 : rxBuf.length < 9) :
    (readXYMD02Sensor s rxBuf).log =
      if rxBuf.length ≥ 3 ∧ rd rxBuf 1 &&& 0x80 ≠ 0 then
        [Msg.tx buildCommand, Msg.rxCount rxBuf.length, Msg.partialResponse rxBuf,
          Msg.modbusException (rd rxBuf 1 &&& 0x7F) (rd rxBuf 2)]
      else [Msg.tx buildCommand, Msg.rxCount rxBuf.length, Msg.partialResponse rxBuf] := by
  have hb : (9 : Byte).val = 9 := rfl
  have hn : ¬ 9 ≤ rxBuf.length := by omega
  unfold readXYMD02Sensor
  simp only [hb, ge_iff_le, if_neg hn, gt_iff_lt, if_pos h0]
  split <;> rfl

/-- C7 (as stated, refuted): the 2-byte partial response `01 84` has a function
byte with its high bit set, yet no device exception is reported: the console
shows only the partial response. -/
theorem partial_two_bytes_no_exception :
    ([0x01, 0x84] : List Byte).length < 9 ∧ rd [0x01, 0x84] 1 &&& 0x80 ≠ 0 ∧
      (readXYMD02Sensor ⟨0, 0, true⟩ [0x01, 0x84]).log
        = [Msg.tx buildCommand, Msg.rxCount 2, Msg.partialResponse [0x01, 0x84]] ∧
      ∀ f c, Msg.modbusException f c ∉ (readXYMD02Sensor ⟨0, 0, true⟩ [0x01, 0x84]).log := by
  have hlog : (readXYMD02Sensor ⟨0, 0, true⟩ [0x01, 0x84]).log
      = [Msg.tx buildCommand, Msg.rxCount 2, Msg.partialResponse [0x01, 0x84]] := by
    rw [readXYMD02Sensor_partial_log _ _ (by decide) (by decide)]
    rfl
  refine ⟨by decide, by decide, hlog, ?_⟩
  intro f c hmem
  rw [hlog] at hmem
  simp at hmem

/-- C7 (amended): when the poll ends with a partial response of at least 3 and
fewer than 9 bytes whose function byte (byte 1) has its high bit set,
`readXYMD02Sensor` prints the partial response and then reports a device
exception carrying the function code `byte1 & 0x7F` and the exception code
(byte 2); it reports no timeout and sets `sensorConnected` false. For the
3-byte response `01 84 02` the exception code is 0x02 and the function 0x04. -/
theorem partial_exception_reported (s : SensorState) (rxBuf : List Byte)
    (h3 : 3 ≤ rxBuf.length) (h9 : rxBuf.length < 9) (hbit : rd rxBuf 1 &&& 0x80 ≠ 0) :
    ((readXYMD02Sensor s rxBuf).log
        = [Msg.tx buildCommand, Msg.rxCount rxBuf.length, Msg.partialResponse rxBuf,
            Msg.modbusException (rd rxBuf 1 &&& 0x7F) (rd rxBuf 2)] ∧
      Msg.timeout ∉ (readXYMD02Sensor s rxBuf).log ∧
      (readXYMD02Sensor s rxBuf).state.sensorConnected = false) ∧
    (readXYMD02Sensor s [0x01, 0x84, 0x02]).log
      = [Msg.tx buildCommand, Msg.rxCount 3, Msg.partialResponse [0x01, 0x84, 0x02],
          Msg.modbusException 0x04 0x02] := by
  have hlog := readXYMD02Sensor_partial_log s rxBuf (by omega) h9
  rw [if_pos ⟨h3, hbit⟩] at hlog
  refine ⟨⟨hlog, ?_, ?_⟩, ?_⟩
  · rw [hlog]; simp
  · rw [readXYMD02Sensor_short s rxBuf h9]
  · rw [readXYMD02Sensor_partial_log s _ (by decide) (by decide)]
    rfl

/-- Witness for C7 (amended) at the 3-byte response `01 84 02`. -/
theorem partial_exception_reported_witness :
    3 ≤ ([0x01, 0x84, 0x02] : List Byte).length ∧ ([0x01, 0x84, 0x02] : List Byte).length < 9 ∧
      rd [0x01, 0x84, 0x02] 1 &&& 0x80 ≠ 0 ∧
      (readXYMD02Sensor ⟨0, 0, true⟩ [0x01, 0x84, 0x02]).state.sensorConnected = false :=
  ⟨by decide, by decide, by decide,
    (partial_exception_reported ⟨0, 0, true⟩ [0x01, 0x84, 0x02]
      (by decide) (by decide) (by decide)).1.2.2⟩

/-! ## Comfort classification -/

theorem displayComfortStatus_comfort (t h : ℚ) (ht1 : TEMP_MIN ≤ t) (ht2 : t ≤ TEMP_MAX)
    (hh1 : HUMIDITY_MIN ≤ h) (hh2 : h ≤ HUMIDITY_MAX) :
    displayComfortStatus t h = "Status: COMFORT" := by
  unfold displayComfortStatus
  simp [ht1, ht2, hh1, hh2]

theorem displayComfortStatus_cold (t h : ℚ) (ht : t < TEMP_MIN) :
    displayComfortStatus t h = "Status: TOO COLD" := by
  unfold displayComfortStatus
  simp [ht, not_le.mpr ht]

theorem displayComfortStatus_hot (t h : ℚ) (ht : TEMP_MAX < t) :
    displayComfortStatus t h = "Status: TOO HOT" := by
  have h1 : ¬ t < TEMP_MIN := by
    have : TEMP_MIN ≤ TEMP_MAX := by unfold TEMP_MIN TEMP_MAX; norm_num
    exact not_lt.mpr (le_trans this (le_of_lt ht))
  unfold displayComfortStatus
  simp [ht, not_le.mpr ht, h1]

/-- C8: with the configured bounds 18.0, 26.0, 30.0 and 60.0, every temperature
`t` with `18.0 ≤ t ≤ 26.0` and humidity `h` with `30.0 ≤ h ≤ 60.0` is reported
as COMFORT, the exact boundary values included; with `h` in range, `t = 17.9`
is reported TOO COLD and `t = 26.1` TOO HOT. -/
theorem comfort_bounds_inclusive (t h : ℚ) (ht1 : 18 ≤ t) (ht2 : t ≤ 26) (hh1 : 30 ≤ h)
    (hh2 : h ≤ 60) :
    (TEMP_MIN = 18 ∧ TEMP_MAX = 26 ∧ HUMIDITY_MIN = 30 ∧ HUMIDITY_MAX = 60) ∧
      displayComfortStatus t h = "Status: COMFORT" ∧
      displayComfortStatus 18 h = "Status: COMFORT" ∧
      displayComfortStatus 26 h = "Status: COMFORT" ∧
      displayComfortStatus t 30 = "Status: COMFORT" ∧
      displayComfortStatus t 60 = "Status: COMFORT" ∧
      displayComfortStatus (179 / 10) h = "Status: TOO COLD" ∧
      displayComfortStatus (261 / 10) h = "Status: TOO HOT" := by
  have e1 : TEMP_MIN = 18 := rfl
  have e2 : TEMP_MAX = 26 := rfl
  have e3 : HUMIDITY_MIN = 30 := rfl
  have e4 : HUMIDITY_MAX = 60 := rfl
  refine ⟨⟨e1, e2, e3, e4⟩, ?_, ?_, ?_, ?_, ?_, ?_, ?_⟩
  · exact displayComfortStatus_comfort t h (e1 ▸ ht1) (e2 ▸ ht2) (e3 ▸ hh1) (e4 ▸ hh2)
  · exact displayComfortStatus_comfort 18 h (by rw [e1]) (by rw [e2]; norm_num)
      (e3 ▸ hh1) (e4 ▸ hh2)
  · exact displayComfortStatus_comfort 26 h (by rw [e1]; norm_num) (by rw [e2])
      (e3 ▸ hh1) (e4 ▸ hh2)
  · exact displayComfortStatus_comfort t 30 (e1 ▸ ht1) (e2 ▸ ht2) (by rw [e3])
      (by rw [e4]; norm_num)
  · exact displayComfortStatus_comfort t 60 (e1 ▸ ht1) (e2 ▸ ht2) (by rw [e3]; norm_num)
      (by rw [e4])
  · exact displayComfortStatus_cold _ h (by rw [e1]; norm_num)
  · exact displayComfortStatus_hot _ h (by rw [e2]; norm_num)

/-- Witness for C8 at 22.0 degrees and 45.0 percent. -/
theorem comfort_bounds_inclusive_witness :
    (18 : ℚ) ≤ 22 ∧ (22 : ℚ) ≤ 26 ∧ (30 : ℚ) ≤ 45 ∧ (45 : ℚ) ≤ 60 ∧
      displayComfortStatus 22 45 = "Status: COMFORT" :=
  ⟨by norm_num, by norm_num, by norm_num, by norm_num,
    (comfort_bounds_inclusive 22 45 (by norm_num) (by norm_num) (by norm_num)
      (by norm_num)).2.1⟩

/-- C9: temperature takes priority over humidity. For every humidity `h`,
`displayComfortStatus` reports TOO COLD whenever the temperature is below
`TEMP_MIN` and TOO HOT whenever it is above `TEMP_MAX`; TOO DRY and TOO HUMID
are reported only when `TEMP_MIN ≤ temperature ≤ TEMP_MAX`. Temperature 10.0
with humidity 90.0 is reported TOO COLD, not TOO HUMID. -/
theorem temperature_priority (t h : ℚ) :
    (t < TEMP_MIN → displayComfortStatus t h = "Status: TOO COLD") ∧
      (t > TEMP_MAX → displayComfortStatus t h = "Status: TOO HOT") ∧
      (displayComfortStatus t h = "Status: TOO DRY" ∨
          displayComfortStatus t h = "Status: TOO HUMID" →
        TEMP_MIN ≤ t ∧ t ≤ TEMP_MAX) ∧
      displayComfortStatus 10 90 = "Status: TOO COLD" ∧
      displayComfortStatus 10 90 ≠ "Status: TOO HUMID" := by
  have h1090 : displayComfortStatus 10 90 = "Status: TOO COLD" :=
    displayComfortStatus_cold 10 90 (by unfold TEMP_MIN; norm_num)
  refine ⟨displayComfortStatus_cold t h, displayComfortStatus_hot t h, ?_, h1090, ?_⟩
  · intro hd
    by_cases hc : t < TEMP_MIN
    · rw [displayComfortStatus_cold t h hc] at hd
      rcases hd with hd | hd <;> exact absurd hd (by decide)
    · by_cases hh : TEMP_MAX < t
      · rw [displayComfortStatus_hot t h hh] at hd
        rcases hd with hd | hd <;> exact absurd hd (by decide)
      · exact ⟨not_lt.mp hc, not_lt.mp hh⟩
  · rw [h1090]; decide

/-- Witness for C9 at temperature 10.0 and humidity 90.0. -/
theorem temperature_priority_witness :
    (10 : ℚ) < TEMP_MIN ∧ displayComfortStatus 10 90 = "Status: TOO COLD" :=
  ⟨by unfold TEMP_MIN; norm_num,
    (temperature_priority 10 90).1 (by unfold TEMP_MIN; norm_num)⟩

/-! ## Link tests -/

theorem testSensor_crc (address : Byte) :
    calculateCRC [address, 0x03, 0x00, 0x00, 0x00, 0x02] 6
      = specCRC16Modbus [address, 0x03, 0x00, 0x00, 0x00, 0x02] := by
  have h : (6 : Byte).val ≤ [address, (0x03 : Byte), 0x00, 0x00, 0x00, 0x02].length :=
    Nat.le_of_ble_eq_true rfl
  rw [calculateCRC_eq_take _ 6 h]
  rfl

/-- C10: `calculateCRC` over `01 03 00 00 00 02` is 0x0BC4, so the command that
`testSensor(0x01)` assembles is the frame `01 03 00 00 00 02 C4 0B` hard-coded
in `rs485_test.cpp`; and for every address `a`, `testSensor(a)` sends
`[a, 03, 00, 00, 00, 02, crc & 0xFF, crc >> 8]` with `crc` the `calculateCRC`
of the first six bytes. -/
theorem testSensor_frame (a : Byte) :
    calculateCRC [0x01, 0x03, 0x00, 0x00, 0x00, 0x02] 6 = 0x0BC4 ∧
      testSensor 0x01 = rs485TestCommand ∧
      rs485TestCommand = [0x01, 0x03, 0x00, 0x00, 0x00, 0x02, 0xC4, 0x0B] ∧
      (testSensor a).map Fin.val =
        [a.val, 0x03, 0x00, 0x00, 0x00, 0x02,
          calculateCRC [a, 0x03, 0x00, 0x00, 0x00, 0x02] 6 &&& 0xFF,
          calculateCRC [a, 0x03, 0x00, 0x00, 0x00, 0x02] 6 >>> 8] := by
  have h1 : calculateCRC [0x01, 0x03, 0x00, 0x00, 0x00, 0x02] 6 = 0x0BC4 := by
    rw [testSensor_crc]; decide
  refine ⟨h1, ?_, rfl, ?_⟩
  · unfold testSensor
    simp only [h1]
    decide
  · have hlt := specCRC16Modbus_lt [a, 0x03, 0x00, 0x00, 0x00, 0x02]
    rw [← testSensor_crc a] at hlt
    have hand : ∀ n : Nat, n &&& 0xFF = n % 256 := fun n => Nat.and_pow_two_sub_one_eq_mod n 8
    have hshr : ∀ n : Nat, n >>> 8 = n / 256 := fun n => Nat.shiftRight_eq_div_pow n 8
    unfold testSensor
    simp only [List.map_append, List.map_cons, List.map_nil, List.cons_append, List.nil_append,
      toByte_val, hand, hshr]
    have e0 : ((0x00 : Byte) : Nat) = 0 := rfl
    have e2 : ((0x02 : Byte) : Nat) = 2 := rfl
    have e3 : ((0x03 : Byte) : Nat) = 3 := rfl
    rw [e0, e2, e3]
    have m1 : calculateCRC [a, 0x03, 0x00, 0x00, 0x00, 0x02] 6 % 256 % 256
        = calculateCRC [a, 0x03, 0x00, 0x00, 0x00, 0x02] 6 % 256 := by omega
    have m2 : calculateCRC [a, 0x03, 0x00, 0x00, 0x00, 0x02] 6 / 256 % 256 % 256
        = calculateCRC [a, 0x03, 0x00, 0x00, 0x00, 0x02] 6 / 256 := by omega
    rw [m1, m2]

/-! ## Order of the validation checks -/

theorem validate_nine_unfold (response : List Byte) :
    validateModbusResponse response 9 =
      if rd response 0 ≠ SENSOR_ADDRESS then
        (false, [Msg.wrongAddress SENSOR_ADDRESS (rd response 0)])
      else if rd response 1 ≠ 0x04 then
        (false, [Msg.wrongFunction (rd response 1)])
      else if rd response 2 ≠ 0x04 then
        (false, [Msg.wrongByteCount (rd response 2)])
      else if toU16 (rd response 7 ||| (rd response 8 <<< 8)) ≠ calculateCRC response 7 then
        (false, [Msg.crcMismatch (toU16 (rd response 7 ||| (rd response 8 <<< 8)))
          (calculateCRC response 7)])
      else (true, []) := by
  have h9 : ¬ ((9 : Byte).val < 5) := by decide
  have h7 : toByte 7 = 7 := by decide
  have e7 : (9 : Byte).val - 2 = 7 := rfl
  have e8 : (9 : Byte).val - 1 = 8 := rfl
  unfold validateModbusResponse
  simp only [if_neg h9, e7, e8, h7]

/-- C11: for every 9-byte response the failure that `validateModbusResponse`
diagnoses is the first failing check in the order address, function code, byte
count, checksum. A wrong address is reported as an address mismatch whatever
the other bytes are; with the right address, a wrong function code is reported
as such; with the right address and function code, a wrong byte count is
reported as a byte-count error whatever the checksum is; a checksum failure is
reported only when the three header bytes are all correct. -/
theorem validation_order (response : List Byte) (_hlen : response.length = 9) :
    (rd response 0 ≠ SENSOR_ADDRESS →
        validateModbusResponse response 9
          = (false, [Msg.wrongAddress SENSOR_ADDRESS (rd response 0)])) ∧
      (rd response 0 = SENSOR_ADDRESS → rd response 1 ≠ 0x04 →
        validateModbusResponse response 9 = (false, [Msg.wrongFunction (rd response 1)])) ∧
      (rd response 0 = SENSOR_ADDRESS → rd response 1 = 0x04 → rd response 2 ≠ 0x04 →
        validateModbusResponse response 9 = (false, [Msg.wrongByteCount (rd response 2)])) ∧
      (rd response 0 = SENSOR_ADDRESS → rd response 1 = 0x04 → rd response 2 = 0x04 →
        toU16 (rd response 7 ||| (rd response 8 <<< 8)) ≠ calculateCRC response 7 →
        validateModbusResponse response 9
          = (false, [Msg.crcMismatch (toU16 (rd response 7 ||| (rd response 8 <<< 8)))
              (calculateCRC response 7)])) ∧
      (∀ received calculated,
        Msg.crcMismatch received calculated ∈ (validateModbusResponse response 9).2 →
          rd response 0 = SENSOR_ADDRESS ∧ rd response 1 = 0x04 ∧ rd response 2 = 0x04) ∧
      validateModbusResponse [0x02, 0x03, 0x05, 0x00, 0xFA, 0x01, 0xF4, 0x00, 0x00] 9
        = (false, [Msg.wrongAddress 0x01 0x02]) ∧
      validateModbusResponse [0x01, 0x04, 0x05, 0x00, 0xFA, 0x01, 0xF4, 0x00, 0x00] 9
        = (false, [Msg.wrongByteCount 0x05]) := by
  refine ⟨?_, ?_, ?_, ?_, ?_, ?_, ?_⟩
  · intro h0
    rw [validate_nine_unfold, if_pos h0]
  · intro h0 h1
    rw [validate_nine_unfold, if_neg (not_not.mpr h0), if_pos h1]
  · intro h0 h1 h2
    rw [validate_nine_unfold, if_neg (not_not.mpr h0), if_neg (not_not.mpr h1), if_pos h2]
  · intro h0 h1 h2 hc
    rw [validate_nine_unfold, if_neg (not_not.mpr h0), if_neg (not_not.mpr h1),
      if_neg (not_not.mpr h2), if_pos hc]
  · intro received calculated hmem
    rw [validate_nine_unfold] at hmem
    by_cases h0 : rd response 0 = SENSOR_ADDRESS
    · by_cases h1 : rd response 1 = 0x04
      · by_cases h2 : rd response 2 = 0x04
        · exact ⟨h0, h1, h2⟩
        · rw [if_neg (not_not.mpr h0), if_neg (not_not.mpr h1), if_pos h2] at hmem
          simp at hmem
      · rw [if_neg (not_not.mpr h0), if_pos h1] at hmem
        simp at hmem
    · rw [if_pos h0] at hmem
      simp at hmem
  · rw [validate_nine_unfold, if_pos (by decide)]
    rfl
  · rw [validate_nine_unfold, if_neg (by decide), if_neg (by decide), if_pos (by decide)]
    rfl

/-- Witness for C11: the 9-byte response `02 03 05 00 FA 01 F4 00 00`, wrong in
address, function code, byte count and checksum, is diagnosed as an address
mismatch. -/
theorem validation_order_witness :
    ([0x02, 0x03, 0x05, 0x00, 0xFA, 0x01, 0xF4, 0x00, 0x00] : List Byte).length = 9 ∧
      rd [0x02, 0x03, 0x05, 0x00, 0xFA, 0x01, 0xF4, 0x00, 0x00] 0 ≠ SENSOR_ADDRESS ∧
      validateModbusResponse [0x02, 0x03, 0x05, 0x00, 0xFA, 0x01, 0xF4, 0x00, 0x00] 9
        = (false, [Msg.wrongAddress SENSOR_ADDRESS
            (rd [0x02, 0x03, 0x05, 0x00, 0xFA, 0x01, 0xF4, 0x00, 0x00] 0)]) :=
  ⟨rfl, by decide,
    (validation_order [0x02, 0x03, 0x05, 0x00, 0xFA, 0x01, 0xF4, 0x00, 0x00] rfl).1
      (by decide)⟩

/-! ## The indeterminate branch -/

theorem displayComfortStatus_eq_over (t h : ℚ) :
    displayComfortStatus t h
      = displayComfortStatusOver TEMP_MIN TEMP_MAX HUMIDITY_MIN HUMIDITY_MAX t h := rfl

theorem displayComfortStatusOver_definite {α : Type} [LinearOrder α]
    (tempMin tempMax humidityMin humidityMax t h : α) :
    displayComfortStatusOver tempMin tempMax humidityMin humidityMax t h ∈ definiteStatuses := by
  unfold displayComfortStatusOver definiteStatuses
  by_cases h1 : t < tempMin
  · simp [h1, not_le.mpr h1]
  · by_cases h2 : tempMax < t
    · simp [h1, h2, not_le.mpr h2]
    · by_cases h3 : h < humidityMin
      · simp [h1, h2, h3, not_le.mpr h3]
      · by_cases h4 : humidityMax < h
        · simp [h1, h2, h3, h4, not_le.mpr h4]
        · simp [not_lt.mp h1, not_lt.mp h2, not_lt.mp h3, not_lt.mp h4]

theorem check_not_definite : "Status: CHECK" ∉ definiteStatuses := by decide

/-- C12: the indeterminate branch is unreachable. For every pair of rational
readings, in particular `a/10` and `b/10` for register values `a` and `b` and
the reading left in the globals by any poll, and more generally for readings
and bounds from any totally ordered type, `displayComfortStatus` prints one of
the five pairwise distinct lines COMFORT, TOO COLD, TOO HOT, TOO DRY,
TOO HUMID and never the line `Status: CHECK`. -/
theorem check_branch_unreachable :
    (∀ t h : ℚ, displayComfortStatus t h ∈ definiteStatuses ∧
        displayComfortStatus t h ≠ "Status: CHECK") ∧
      (∀ a b : Nat, displayComfortStatus ((a : ℚ) / 10) ((b : ℚ) / 10) ∈ definiteStatuses ∧
        displayComfortStatus ((a : ℚ) / 10) ((b : ℚ) / 10) ≠ "Status: CHECK") ∧
      (∀ (s : SensorState) (rxBuf : List Byte),
        displayComfortStatus (readXYMD02Sensor s rxBuf).state.temperature
            (readXYMD02Sensor s rxBuf).state.humidity ∈ definiteStatuses ∧
          displayComfortStatus (readXYMD02Sensor s rxBuf).state.temperature
            (readXYMD02Sensor s rxBuf).state.humidity ≠ "Status: CHECK") ∧
      (∀ (α : Type) [LinearOrder α] (tempMin tempMax humidityMin humidityMax t h : α),
        displayComfortStatusOver tempMin tempMax humidityMin humidityMax t h ∈ definiteStatuses ∧
          displayComfortStatusOver tempMin tempMax humidityMin humidityMax t h
            ≠ "Status: CHECK") ∧
      (∀ t h : ℚ, displayComfortStatus t h
        = displayComfortStatusOver TEMP_MIN TEMP_MAX HUMIDITY_MIN HUMIDITY_MAX t h) ∧
      definiteStatuses.Nodup ∧
      definiteStatuses = ["Status: COMFORT", "Status: TOO COLD", "Status: TOO HOT",
        "Status: TOO DRY", "Status: TOO HUMID"] := by
  have gen : ∀ (α : Type) [LinearOrder α] (tempMin tempMax humidityMin humidityMax t h : α),
      displayComfortStatusOver tempMin tempMax humidityMin humidityMax t h ∈ definiteStatuses ∧
        displayComfortStatusOver tempMin tempMax humidityMin humidityMax t h
          ≠ "Status: CHECK" := by
    intro α _ tempMin tempMax humidityMin humidityMax t h
    have hm := displayComfortStatusOver_definite tempMin tempMax humidityMin humidityMax t h
    exact ⟨hm, fun heq => check_not_definite (heq ▸ hm)⟩
  have rat : ∀ t h : ℚ, displayComfortStatus t h ∈ definiteStatuses ∧
      displayComfortStatus t h ≠ "Status: CHECK" := by
    intro t h
    rw [displayComfortStatus_eq_over]
    exact gen ℚ TEMP_MIN TEMP_MAX HUMIDITY_MIN HUMIDITY_MAX t h
  exact ⟨rat, fun a b => rat _ _, fun s rxBuf => rat _ _, gen, displayComfortStatus_eq_over,
    by decide, rfl⟩

/-! ## Zero residue of a checksummed frame -/

theorem specShiftStep_double (m : Nat) : specShiftStep (2 * m) = m := by
  unfold specShiftStep
  rw [if_neg (by omega)]
  omega

theorem specShiftStep_iterate_two_pow (j k : Nat) : specShiftStep^[j] (2 ^ j * k) = k := by
  induction j generalizing k with
  | zero => simp
  | succ j ih =>
    rw [Function.iterate_succ_apply]
    have h : 2 ^ (j + 1) * k = 2 * (2 ^ j * k) := by rw [Nat.pow_succ]; ring
    rw [h, specShiftStep_double, ih]

theorem xor_low_byte (c : Nat) : c ^^^ (c % 2 ^ 8) = 2 ^ 8 * (c / 2 ^ 8) := by
  apply Nat.eq_of_testBit_eq
  intro i
  rw [Nat.testBit_xor, Nat.testBit_mod_two_pow, Nat.testBit_mul_pow_two,
    ← Nat.shiftRight_eq_div_pow, Nat.testBit_shiftRight]
  by_cases hi : i < 8
  · have h1 : ¬ i ≥ 8 := by omega
    simp [hi, h1]
  · have h1 : i ≥ 8 := by omega
    have h2 : 8 + (i - 8) = i := by omega
    simp [hi, h1, h2]

theorem specByteStep_low (c : Nat) : specByteStep c (toByte (c % 256)) = c / 256 := by
  unfold specByteStep
  have h : (toByte (c % 256)).val = c % 2 ^ 8 := by rw [toByte_val]; omega
  rw [h, xor_low_byte, specShiftStep_iterate_two_pow]
  rfl

theorem specByteStep_self (k : Nat) (hk : k < 256) : specByteStep k (toByte k) = 0 := by
  unfold specByteStep
  have h : (toByte k).val = k := by rw [toByte_val]; omega
  rw [h, Nat.xor_self]
  exact specShiftStep_iterate_two_pow 8 0

theorem specCRC16Modbus_append_checksum (d : List Byte) :
    specCRC16Modbus
      (d ++ [toByte (specCRC16Modbus d % 256), toByte (specCRC16Modbus d / 256)]) = 0 := by
  have hlt := specCRC16Modbus_lt d
  unfold specCRC16Modbus at hlt ⊢
  rw [List.foldl_append, List.foldl_cons, List.foldl_cons, List.foldl_nil, specByteStep_low,
    specByteStep_self _ (by omega)]

theorem calculateCRC_eq_spec_of_length (d : List Byte) (n : Byte) (h : d.length = n.val) :
    calculateCRC d n = specCRC16Modbus d := by
  rw [calculateCRC_eq_take d n (by omega), ← h, List.take_length]

/-- C13: zero residue of a checksummed frame. For every byte sequence `d` of
length at most 253 with `c = calculateCRC d`, `calculateCRC` over `d` followed
by the low byte of `c` and then the high byte of `c` is 0. Hence the checksum
taken over the whole 8-byte request built by `readXYMD02Sensor`, and over the
whole of every 9-byte response accepted by `validateModbusResponse`, is 0. -/
theorem crc_zero_residue (d : List Byte) (n : Byte) (hn : d.length = n.val)
    (h253 : d.length ≤ 253) :
    calculateCRC (d ++ [toByte (calculateCRC d n % 256), toByte (calculateCRC d n / 256)])
        (toByte (d.length + 2)) = 0 ∧
      (∀ (s : SensorState) (rxBuf : List Byte),
        (readXYMD02Sensor s rxBuf).sent.length = 8 ∧
          calculateCRC (readXYMD02Sensor s rxBuf).sent 8 = 0) ∧
      (∀ frame : List Byte, frame.length = 9 → (validateModbusResponse frame 9).1 = true →
        calculateCRC frame 9 = 0) := by
  refine ⟨?_, ?_, ?_⟩
  · have hlen : (d ++ [toByte (calculateCRC d n % 256), toByte (calculateCRC d n / 256)]).length
        = (toByte (d.length + 2)).val := by
      rw [toByte_val, List.length_append]
      show d.length + 2 = (d.length + 2) % 256
      omega
    rw [calculateCRC_eq_spec_of_length _ _ hlen, calculateCRC_eq_spec_of_length d n hn]
    exact specCRC16Modbus_append_checksum d
  · intro s rxBuf
    rw [readXYMD02Sensor_sent, buildCommand_eq]
    refine ⟨rfl, ?_⟩
    rw [calculateCRC_eq_spec_of_length
      [0x01, 0x04, 0x00, 0x01, 0x00, 0x02, 0x20, 0x0B] 8 rfl]
    decide
  · intro frame hlen hacc
    obtain ⟨b0, b1, b2, b3, b4, b5, b6, b7, b8, rfl⟩ := list_length_nine frame hlen
    rw [validate_nine_iff] at hacc
    obtain ⟨_, _, _, hc⟩ := hacc
    have h7 := b7.isLt
    have h8 := b8.isLt
    have e7 : b7 = toByte (specCRC16Modbus [b0, b1, b2, b3, b4, b5, b6] % 256) := by
      apply Fin.ext; rw [toByte_val]; omega
    have e8 : b8 = toByte (specCRC16Modbus [b0, b1, b2, b3, b4, b5, b6] / 256) := by
      apply Fin.ext; rw [toByte_val]; omega
    rw [calculateCRC_eq_spec_of_length [b0, b1, b2, b3, b4, b5, b6, b7, b8] 9 rfl]
    have happ := specCRC16Modbus_append_checksum [b0, b1, b2, b3, b4, b5, b6]
    rw [← e7, ← e8] at happ
    exact happ

/-- Witness for C13 at the six request bytes `01 04 00 01 00 02`. -/
theorem crc_zero_residue_witness :
    ([0x01, 0x04, 0x00, 0x01, 0x00, 0x02] : List Byte).length = (6 : Byte).val ∧
      ([0x01, 0x04, 0x00, 0x01, 0x00, 0x02] : List Byte).length ≤ 253 ∧
      calculateCRC
        ([0x01, 0x04, 0x00, 0x01, 0x00, 0x02] ++
          [toByte (calculateCRC [0x01, 0x04, 0x00, 0x01, 0x00, 0x02] 6 % 256),
            toByte (calculateCRC [0x01, 0x04, 0x00, 0x01, 0x00, 0x02] 6 / 256)])
        (toByte (([0x01, 0x04, 0x00, 0x01, 0x00, 0x02] : List Byte).length + 2)) = 0 :=
  ⟨rfl, by decide, (crc_zero_residue [0x01, 0x04, 0x00, 0x01, 0x00, 0x02] 6 rfl (by decide)).1⟩

end ClimateMonitor
